import Mathlib

/-!
Verification of the live-match tracker of the Whitecaps score bot.

The development shallowly embeds the tracker core of the repository:

* `whitecaps_bot/apifootball.py` — the `MatchState` snapshot dataclass, the
  status-code tables and the `state` property, and `SubstitutionEvent` with its
  `dedupe_key`.
* `whitecaps_bot/tracker.py` — the `MatchTracker` per-match state
  (`__init__`), `THREAD_CREATION_WINDOW` and `should_create_thread`, and the
  state updates performed by `ensure_match_thread`.
* `whitecaps_bot/bot.py` — `_update_once`, the per-poll tick that resets state
  on a fixture change, creates the match thread, and emits goal / card /
  substitution / halftime / fulltime notifications; and `_live_update_loop`.
* `tracker.py` (repository root) — the standalone tracker variant: the
  empty-scoreboard branch of `MatchTracker._tick` and the `_loop`
  exception-handling structure.

Conventions of the embedding:

* Python `datetime` values are UTC timestamps in seconds, modelled as `Int`.
* Python `set` objects are `List`s used up to membership (`add` is a
  conditional cons), which matches the source's use (membership and add only).
* Fixture / channel ids are `Nat`.
* External effects (HTTP fetches, Discord sends, channel resolution) are
  supplied by a per-tick environment `TickEnv`; an exception escaping the tick
  is the `TickFlow.raised` outcome, an early `return` is `TickFlow.done`.
* Spec phases map to the code as follows (status tables of
  `apifootball.py`): phase `in_progress` or `halftime` is `state = "in"`,
  phase `finished` is `state = "post"`, phase `scheduled` is `state = "pre"`.
-/

/-- Status codes of `apifootball.py`: `PRE_MATCH_CODES`. -/
def PRE_MATCH_CODES : List String := ["TBD", "NS", "PST", "CANC", "ABD", "AWD", "WO"]

/-- Status codes of `apifootball.py`: `IN_MATCH_CODES`. -/
def IN_MATCH_CODES : List String := ["1H", "HT", "2H", "ET", "BT", "P", "LIVE", "INT"]

/-- Status codes of `apifootball.py`: `FINAL_CODES`. -/
def FINAL_CODES : List String := ["FT", "AET", "PEN"]

/-- The snapshot dataclass `MatchState` of `apifootball.py`.  The dataclass
declaration in `apifootball.py` lists the fields up to `starts_at`; the ESPN
client (`espn.py:_extract_match`) and the test suite additionally construct it
with `venue` and `broadcasts`, so those two fields are included here as well.
`starts_at` is a UTC timestamp in seconds. -/
structure MatchState where
  fixture_id : Nat
  home_name : String
  away_name : String
  home_goals : Option Int
  away_goals : Option Int
  elapsed : Option Int
  short_status : String
  long_status : String
  starts_at : Option Int
  venue : String := ""
  broadcasts : List String := []
deriving DecidableEq

/-- Python's `str.upper()` on the ASCII status strings involved: uppercase
every character.  (Defined over the character list so that concrete instances
evaluate inside the kernel.) -/
def strUpper (s : String) : String := ⟨s.data.map Char.toUpper⟩

/-- Python's `str.lower()`: lowercase every character. -/
def strLower (s : String) : String := ⟨s.data.map Char.toLower⟩

/-- The `MatchState.state` property of `apifootball.py` (lines 30-37):
`(short_status or "").upper()` classified by the code tables.  An empty
`short_status` upper-cases to the empty string, which falls through to
`"pre"`, exactly like the `or ""` in the source. -/
def MatchState.state (m : MatchState) : String :=
  let short := strUpper m.short_status
  if short ∈ IN_MATCH_CODES then "in"
  else if short ∈ FINAL_CODES then "post"
  else "pre"

/-- Modelled from the spec: `MatchState.is_halftime` is referenced by
`bot.py:_update_once` and pinned down by `tests/test_apifootball.py`
(`HT` short status is halftime; an ESPN snapshot with long status
`"Halftime"` is halftime; `1H`/`"First Half"` is not), but its definition is
not part of the sources under `src/`.  Following the spec's phase mapping
(§4.3, phase `halftime` derived from the provider status) and those tests:
halftime holds when the short status is `HT` or the long status reads
halftime. -/
def MatchState.is_halftime (m : MatchState) : Prop :=
  strUpper m.short_status = "HT" ∨ strLower m.long_status = "halftime"

instance (m : MatchState) : Decidable m.is_halftime := by
  unfold MatchState.is_halftime
  infer_instance

/-!
## Decimal rendering of fixture ids

The dedupe keys of `SubstitutionEvent.dedupe_key` (`apifootball.py` lines
40-50) are f-strings `f"{fixture_id}:{elapsed}:..."`: the fixture id is
rendered in decimal and joined with `:` separators.  `natStr` is that decimal
rendering (little-endian digit list, then characters); it is proved injective
and colon-free below, which is what makes keys of distinct fixtures distinct.
-/
/-- Little-endian decimal digits of a natural number (empty for `0`). -/
def digitsLE (n : Nat) : List Nat :=
  if h : n = 0 then [] else (n % 10) :: digitsLE (n / 10)
termination_by n
decreasing_by exact Nat.div_lt_self (Nat.pos_of_ne_zero h) (by omega)

/-- Value of a little-endian digit list. -/
def digitsVal : List Nat → Nat
  | [] => 0
  | d :: ds => d + 10 * digitsVal ds

/-- Decimal string of a natural number, as Python's `str(int)` renders
nonnegative integers. -/
def natStr (n : Nat) : String :=
  if n = 0 then "0" else ⟨((digitsLE n).map Nat.digitChar).reverse⟩

/-- Python renders `None` as the string `None` inside an f-string; an `int`
in decimal. -/
def optIntStr : Option Int → String
  | none => "None"
  | some i => toString i

/-- The substitution dedupe key of `apifootball.py` (lines 48-50):
`f"{fixture_id}:{elapsed}:{team_name}:{player_in}:{player_out}"`.
`RawSub` is the per-event payload the provider detail feed yields
(`espn.py:get_substitutions` builds the event from it, stamping the polled
fixture id). -/
structure RawSub where
  elapsed : Option Int
  team_name : String
  player_in : String
  player_out : String
deriving DecidableEq

/-- Modelled from the spec: the card payload.  `CardEvent` is imported and
used throughout `src` (bot, tracker, espn, tests) but its dataclass is not
among the sources under `src/`; the spec (§3, DiscreteEvent) gives it
`elapsed_minutes`, `team_name`, `player_name`, `card_type`. -/
structure RawCard where
  elapsed : Option Int
  team_name : String
  player_name : String
  card_type : String
deriving DecidableEq

/-- Tail of a substitution dedupe key after the fixture id. -/
def subKeyRest (s : RawSub) : String :=
  optIntStr s.elapsed ++ ":" ++ s.team_name ++ ":" ++ s.player_in ++ ":" ++ s.player_out

/-- Key `SubstitutionEvent.dedupe_key` with the event's fields: the f-string
`f"{fixture_id}:{elapsed}:{team_name}:{player_in}:{player_out}"`. -/
def mkSubKey (fid : Nat) (s : RawSub) : String :=
  natStr fid ++ ":" ++ subKeyRest s

/-- Tail of a card dedupe key after the fixture id. -/
def cardKeyRest (c : RawCard) : String :=
  optIntStr c.elapsed ++ ":" ++ c.team_name ++ ":" ++ c.player_name ++ ":" ++ c.card_type

/-- Modelled from the spec: `CardEvent.dedupe_key`, the deterministic
colon-joined key (§3, `dedupe_key`); `tests/test_apifootball.py` pins the
field order `fixture:elapsed:team:player:card_type`. -/
def mkCardKey (fid : Nat) (c : RawCard) : String :=
  natStr fid ++ ":" ++ cardKeyRest c

/-!
## The tracker state (`whitecaps_bot/tracker.py`) and the per-poll tick
(`whitecaps_bot/bot.py:_update_once`)
-/
/-- Fields of `MatchTracker.__init__` (`tracker.py` lines 39-48).  The Python
sets `posted_sub_keys`, `posted_card_keys` and `_threads_created_for` are
lists used up to membership. -/
structure MatchTracker where
  current_fixture_id : Option Nat
  match_thread_id : Option Nat
  last_score : Option (Option Int × Option Int)
  posted_sub_keys : List String
  posted_card_keys : List String
  halftime_posted : Bool
  fulltime_posted : Bool
  threads_created_for : List Nat
deriving DecidableEq

/-- The freshly constructed tracker: everything empty (`MatchTracker.__init__`). -/
def MatchTracker.init : MatchTracker :=
  ⟨none, none, none, [], [], false, false, []⟩

/-- Window `THREAD_CREATION_WINDOW = timedelta(hours=24)` (`tracker.py` line 15),
in seconds. -/
def THREAD_CREATION_WINDOW : Int := 24 * 3600

/-- Policy `MatchTracker.should_create_thread` (`tracker.py` lines 303-321), with
`datetime.now` passed in as `now`:  refuse a fixture already in
`_threads_created_for`; accept a live or finished match; accept a scheduled
match with a kickoff time at most the window away; refuse otherwise.
(A `datetime` is always truthy in Python, so `match.starts_at` is the
`some` test.) -/
def should_create_thread (tr : MatchTracker) (m : MatchState) (now : Int) : Bool :=
  if m.fixture_id ∈ tr.threads_created_for then false
  else if m.state = "in" ∨ m.state = "post" then true
  else if m.state = "pre" then
    match m.starts_at with
    | some t => if t - now ≤ THREAD_CREATION_WINDOW then true else false
    | none => false
  else false

/-- One message handed to the notification sink during a tick.  `goal` carries
the new score pair, `card` and `sub` the dedupe key of the announced event,
`threadLive` is the channel announcement sent right after thread creation
(`bot.py` line 141). -/
inductive Emission where
  | threadLive
  | goal (score : Option Int × Option Int)
  | card (key : String)
  | sub (key : String)
  | halftime
  | fulltime
deriving DecidableEq

/-- How control leaves a point of the tick: keep going, an early `return`,
or an exception escaping `_update_once` (caught by the loop). -/
inductive TickFlow where
  | go
  | done
  | raised
deriving DecidableEq

/-- State reached, messages sent so far, and control status. -/
structure TickResult where
  state : MatchTracker
  events : List Emission
  flow : TickFlow
deriving DecidableEq

/-- Sequencing that mirrors straight-line Python: the continuation runs only
while control keeps going. -/
def TickResult.andThen (r : TickResult) (f : MatchTracker → TickResult) : TickResult :=
  match r.flow with
  | .go =>
    let r2 := f r.state
    ⟨r2.state, r.events ++ r2.events, r2.flow⟩
  | _ => r

/-- The external world of one `_update_once` call: the polled snapshot
(`none` when the provider reported nothing), the wall clock, whether
`ensure_match_thread` produced a messageable (and which id it recorded),
whether each Discord send succeeds, whether `get_channel` resolves the stored
thread id, and the card/substitution detail payloads (`none` when the
`with_retry` fetch raised `RuntimeError`, which the tick catches).
A send whose flag is false raises out of the tick; send-flag lists default to
success past their end. -/
structure TickEnv where
  poll : Option MatchState
  now : Int
  ensureResult : Option Nat
  annOk : Bool
  chanResolves : Bool
  goalSendOk : Bool
  cards : Option (List RawCard)
  cardSendOk : List Bool
  subs : Option (List RawSub)
  subSendOk : List Bool
  htSendOk : Bool
  ftSendOk : Bool
deriving DecidableEq

/-- Source `bot.py` lines 123-130: on a fixture change, set `current_fixture_id` and
reset every per-match field; `_threads_created_for` is untouched. -/
def resetForFixture (tr : MatchTracker) (m : MatchState) : MatchTracker :=
  { current_fixture_id := some m.fixture_id
    match_thread_id := none
    last_score := none
    posted_sub_keys := []
    posted_card_keys := []
    halftime_posted := false
    fulltime_posted := false
    threads_created_for := tr.threads_created_for }

/-- Source `bot.py` lines 134-141 (run only when the fixture changed): if the policy
approves, `ensure_match_thread` either returns a destination — recording the
thread id and adding the fixture to `_threads_created_for`
(`tracker.py` lines 354-387, every successful path does both) — after which
the thread-live announcement is sent; or it fails (an exception inside it, or
a fall-through `None` making the announcement `send` raise), leaving the
tracker unchanged and aborting the tick. -/
def threadStepChanged (tr : MatchTracker) (m : MatchState) (env : TickEnv) : TickResult :=
  if should_create_thread tr m env.now = true then
    match env.ensureResult with
    | some tid =>
      let tr2 : MatchTracker :=
        { tr with
          match_thread_id := some tid
          threads_created_for :=
            if m.fixture_id ∈ tr.threads_created_for then tr.threads_created_for
            else m.fixture_id :: tr.threads_created_for }
      ⟨tr2, [.threadLive], if env.annOk then .go else .raised⟩
    | none => ⟨tr, [], .raised⟩
  else ⟨tr, [], .go⟩

/-- Source `bot.py` lines 150-154: on a live snapshot whose score pair differs from
`last_score`, record the pair (before the send) and post the goal embed. -/
def goalStep (tr : MatchTracker) (m : MatchState) (env : TickEnv) : TickResult :=
  if m.state = "in" ∧ tr.last_score ≠ some (m.home_goals, m.away_goals) then
    ⟨{ tr with last_score := some (m.home_goals, m.away_goals) },
      [.goal (m.home_goals, m.away_goals)],
      if env.goalSendOk then .go else .raised⟩
  else ⟨tr, [], .go⟩

/-- The shared shape of the card and substitution loops (`bot.py` lines
160-164 and 172-176): walk the fetched events; skip a key already posted;
otherwise add the key to the posted set *before* the send and send.  A failed
send raises with the key already recorded.  Returns the grown key set, the
keys announced (in order), and the control status. -/
def processKeyed (mk : α → String) (items : List α) (sendOk : List Bool)
    (keys : List String) : List String × List String × TickFlow :=
  match items with
  | [] => (keys, [], .go)
  | c :: rest =>
    let k := mk c
    if k ∈ keys then processKeyed mk rest sendOk keys
    else
      if sendOk.headD true then
        let out := processKeyed mk rest sendOk.tail (k :: keys)
        (out.1, k :: out.2.1, out.2.2)
      else (k :: keys, [k], .raised)

/-- Source `bot.py` lines 156-166: card alerts.  Only on a live snapshot; a failed
fetch (`RuntimeError` from `with_retry`) is caught and skips the block; the
events are keyed on the polled fixture id. -/
def cardStep (tr : MatchTracker) (m : MatchState) (env : TickEnv) : TickResult :=
  if m.state = "in" then
    match env.cards with
    | none => ⟨tr, [], .go⟩
    | some cs =>
      let out := processKeyed (mkCardKey m.fixture_id) cs env.cardSendOk tr.posted_card_keys
      ⟨{ tr with posted_card_keys := out.1 }, out.2.1.map .card, out.2.2⟩
  else ⟨tr, [], .go⟩

/-- Source `bot.py` lines 168-178: substitution alerts, same shape as the cards. -/
def subStep (tr : MatchTracker) (m : MatchState) (env : TickEnv) : TickResult :=
  if m.state = "in" then
    match env.subs with
    | none => ⟨tr, [], .go⟩
    | some ss =>
      let out := processKeyed (mkSubKey m.fixture_id) ss env.subSendOk tr.posted_sub_keys
      ⟨{ tr with posted_sub_keys := out.1 }, out.2.1.map .sub, out.2.2⟩
  else ⟨tr, [], .go⟩

/-- Source `bot.py` lines 181-183: the halftime alert, gated by `halftime_posted`,
which is set before the send. -/
def htStep (tr : MatchTracker) (m : MatchState) (env : TickEnv) : TickResult :=
  if m.is_halftime ∧ tr.halftime_posted = false then
    ⟨{ tr with halftime_posted := true }, [.halftime],
      if env.htSendOk then .go else .raised⟩
  else ⟨tr, [], .go⟩

/-- Source `bot.py` lines 186-188: the full-time alert, gated by `fulltime_posted`,
which is set before the send. -/
def ftStep (tr : MatchTracker) (m : MatchState) (env : TickEnv) : TickResult :=
  if m.state = "post" ∧ tr.fulltime_posted = false then
    ⟨{ tr with fulltime_posted := true }, [.fulltime],
      if env.ftSendOk then .go else .raised⟩
  else ⟨tr, [], .go⟩

/-- Source `bot.py` lines 150-188 in order: goal, cards, substitutions, halftime,
full time. -/
def liveSteps (tr : MatchTracker) (m : MatchState) (env : TickEnv) : TickResult :=
  (goalStep tr m env).andThen fun s3 =>
  (cardStep s3 m env).andThen fun s4 =>
  (subStep s4 m env).andThen fun s5 =>
  (htStep s5 m env).andThen fun s6 =>
  ftStep s6 m env

/-- Source `bot.py` lines 143-148 then 150-188: return early when no thread id is
stored or `get_channel` cannot resolve it; otherwise run the notification
blocks. -/
def destAndLive (tr : MatchTracker) (m : MatchState) (env : TickEnv) : TickResult :=
  match tr.match_thread_id with
  | none => ⟨tr, [], .done⟩
  | some _ =>
    if env.chanResolves = true then liveSteps tr m env
    else ⟨tr, [], .done⟩

/-- Tick `bot.py:_update_once` (lines 116-188).  A poll with no snapshot returns
at once (lines 118-119) — nothing is reset.  On a fixture change the
per-match state is reset and thread creation attempted; thread creation is
never attempted when the fixture is unchanged (the line 134 condition
requires `fixture_changed`). -/
def update_once (tr : MatchTracker) (env : TickEnv) : TickResult :=
  match env.poll with
  | none => ⟨tr, [], .done⟩
  | some m =>
    if tr.current_fixture_id = some m.fixture_id then
      destAndLive tr m env
    else
      (threadStepChanged (resetForFixture tr m) m env).andThen fun tr2 =>
        destAndLive tr2 m env

/-- The polling loop's successive calls to `_update_once`
(`_live_update_loop` catches every non-cancellation exception and keeps
going, so a raised tick simply leaves its partial state behind).  Returns
the final tracker and the concatenated emission history. -/
def runTicks (tr : MatchTracker) (envs : List TickEnv) : MatchTracker × List Emission :=
  match envs with
  | [] => (tr, [])
  | e :: rest =>
    let r := update_once tr e
    let out := runTicks r.state rest
    (out.1, r.events ++ out.2)

/-- The card dedupe keys announced in an emission history, in order. -/
def cardKeys (l : List Emission) : List String :=
  l.filterMap fun e => match e with
    | .card k => some k
    | _ => none

/-- The substitution dedupe keys announced in an emission history, in order. -/
def subKeys (l : List Emission) : List String :=
  l.filterMap fun e => match e with
    | .sub k => some k
    | _ => none

/-- The goal announcements in an emission history, in order. -/
def goalScores (l : List Emission) : List (Option Int × Option Int) :=
  l.filterMap fun e => match e with
    | .goal sc => some sc
    | _ => none

/-- Occurrences of the halftime announcement in an emission history. -/
def countHt (l : List Emission) : Nat :=
  (l.filter fun e => decide (e = Emission.halftime)).length

/-- Occurrences of the full-time announcement in an emission history. -/
def countFt (l : List Emission) : Nat :=
  (l.filter fun e => decide (e = Emission.fulltime)).length

/-!
## The standalone tracker variant (`tracker.py` at the repository root)
-/
/-- Poll cadence constants of root `tracker.py` (lines 23-25). -/
def POLL_INTERVAL_LIVE : Nat := 30

/-- Poll cadence: a scheduled match. -/
def POLL_INTERVAL_PRE : Nat := 60

/-- Poll cadence: no active match (also the after-error backoff). -/
def POLL_INTERVAL_IDLE : Nat := 300

/-- Per-match state of the standalone `MatchTracker` (root `tracker.py`
lines 77-82).  The live message and thread are ids; `_seen_events` is the
set of event keys already announced. -/
structure TopTracker where
  live_message : Option Nat
  current_match_id : Option String
  seen_events : List String
  match_over : Bool
  thread : Option Nat
  last_state : Option String
deriving DecidableEq

/-- Reset `MatchTracker._reset_state` (root `tracker.py` lines 115-121): every
per-match field back to its initial value. -/
def topResetState : TopTracker :=
  ⟨none, none, [], false, none, none⟩

/-- The empty-scoreboard branch of `MatchTracker._tick` (root `tracker.py`
lines 291-297): when the provider returns no matches, a tracker that was
following a match resets to idle; either way the tick asks for the idle
interval. -/
def topTickEmpty (ts : TopTracker) : TopTracker × Nat :=
  if ts.current_match_id ≠ none then (topResetState, POLL_INTERVAL_IDLE)
  else (ts, POLL_INTERVAL_IDLE)

/-!
## The polling loop (`tracker.py:_loop`, lines 269-283)
-/
/-- Outcome of one `_tick` call: a normal return carrying the requested
sleep interval, a non-cancellation exception, or a cancellation request. -/
inductive TickOutcome where
  | ok (interval : Nat)
  | error
  | cancelled
deriving DecidableEq

/-- The sleep the loop performs after a processed tick (unused for
`cancelled`, which never reaches the sleep). -/
def sleepOf : TickOutcome → Nat
  | .ok i => i
  | .error => POLL_INTERVAL_IDLE
  | .cancelled => 0

/-- The `try`/`except` structure of one loop iteration (`tracker.py` lines
275-283): a normal tick's interval is slept; `asyncio.CancelledError` is
re-raised (`none`: the loop stops); any other exception is logged and the
loop sleeps the idle interval. -/
def loopIter : TickOutcome → Option Nat
  | .ok i => some i
  | .error => some POLL_INTERVAL_IDLE
  | .cancelled => none

/-- The `while True` loop over a sequence of tick outcomes: the sleeps
performed, and whether the loop was stopped by cancellation. -/
def loopRun : List TickOutcome → List Nat × Bool
  | [] => ([], false)
  | o :: rest =>
    match loopIter o with
    | some i =>
      let out := loopRun rest
      (i :: out.1, out.2)
    | none => ([], true)

/-!
## The ESPN extractor (`whitecaps_bot/espn.py:_extract_match`)
-/
/-- One entry of the scoreboard `competitors` array, with the fields
`_extract_match` reads: `homeAway`, the team id and display name (the
source's `.get(..., default)` fallbacks folded into the field values), and
the parsed `score` (`int(... or 0)`: an absent score reads as 0). -/
structure EspnCompetitor where
  homeAway : String
  teamId : String
  displayName : String
  score : Option Int
deriving DecidableEq

/-- One scoreboard event with the fields `_extract_match` reads.  The
broadcast-name collection of lines 91-105 is taken as given in
`broadcasts`. -/
structure EspnEvent where
  id : Nat
  date : Option Int
  statusState : String
  statusDetail : String
  statusDescription : String
  statusShortDetail : String
  competitors : List EspnCompetitor
  venue : String
  broadcasts : List String
deriving DecidableEq

/-- Value of the leading digit run of a character list. -/
def digitRunVal (l : List Char) : Nat :=
  (l.takeWhile Char.isDigit).foldl (fun a c => a * 10 + (c.toNat - 48)) 0

/-- First maximal digit run in a character list, as a number. -/
def firstNumberAux : List Char → Option Nat
  | [] => none
  | c :: r => if c.isDigit then some (digitRunVal (c :: r)) else firstNumberAux r

/-- Search `re.search(r"(\d+)", short_detail)` of `espn.py` lines 77-80: the first
run of digits, if any. -/
def firstNumber (s : String) : Option Int :=
  (firstNumberAux s.data).map fun n => (n : Int)

/-- Check `EspnClient._is_target_team` (`espn.py` lines 50-57): match on team id
when one is configured, else on the lowercased team name occurring in either
display name.  (`EspnClient.__init__` lowercases `team_name` once; here it is
lowercased at use.) -/
def is_target_team (teamId teamName : String) (home away : EspnCompetitor)
    (home_name away_name : String) : Bool :=
  if teamId ≠ "" ∧ (teamId = home.teamId ∨ teamId = away.teamId) then true
  else
    decide ((strLower teamName).data <:+: (strLower home_name).data) ||
    decide ((strLower teamName).data <:+: (strLower away_name).data)

/-- Extractor `EspnClient._extract_match` (`espn.py` lines 59-119): needs at least two
competitors; picks the `home`/`away` sides (falling back to the first two
entries); drops non-target-team events; and builds the `MatchState`, in
particular `short_status = (status state or "pre").upper()` (line 114). -/
def extract_match (teamId teamName : String) (ev : EspnEvent) : Option MatchState :=
  match ev.competitors with
  | c0 :: c1 :: _ =>
    let home := (ev.competitors.find? fun c => c.homeAway = "home").getD c0
    let away := (ev.competitors.find? fun c => c.homeAway = "away").getD c1
    let home_name := home.displayName
    let away_name := away.displayName
    if is_target_team teamId teamName home away home_name away_name = true then
      some
        { fixture_id := ev.id
          home_name := home_name
          away_name := away_name
          home_goals := some (home.score.getD 0)
          away_goals := some (away.score.getD 0)
          elapsed := firstNumber ev.statusShortDetail
          short_status := strUpper (if ev.statusState = "" then "pre" else ev.statusState)
          long_status :=
            if ev.statusDetail ≠ "" then ev.statusDetail
            else ev.statusDescription
          starts_at := ev.date
          venue := ev.venue
          broadcasts := ev.broadcasts }
    else none
  | _ => none

/-- What one live-notification step does to the posted-key bookkeeping: the
fixture, thread and created-threads fields are untouched, the posted-key sets
only grow, and every card/substitution announcement is of a key that was not
yet posted, is posted afterwards, and is keyed on the polled fixture. -/
structure PostedFacts (fid : Nat) (s t : MatchTracker) (evs : List Emission) : Prop where
  current_eq : t.current_fixture_id = s.current_fixture_id
  thread_eq : t.match_thread_id = s.match_thread_id
  threads_eq : t.threads_created_for = s.threads_created_for
  card_grow : s.posted_card_keys ⊆ t.posted_card_keys
  sub_grow : s.posted_sub_keys ⊆ t.posted_sub_keys
  card_nodup : (cardKeys evs).Nodup
  sub_nodup : (subKeys evs).Nodup
  card_facts : ∀ k ∈ cardKeys evs,
    k ∉ s.posted_card_keys ∧ k ∈ t.posted_card_keys ∧ ∃ c : RawCard, k = mkCardKey fid c
  sub_facts : ∀ k ∈ subKeys evs,
    k ∉ s.posted_sub_keys ∧ k ∈ t.posted_sub_keys ∧ ∃ c : RawSub, k = mkSubKey fid c

/-!
## The global dedupe invariant (claim C5)

Emission of a card or substitution needs a resolvable destination; the
destination is only ever (re)acquired in the tick that switches to a fixture
not yet in `threads_created_for`, and acquiring it adds the fixture.  So keys
announced in the past either belong to a fixture other than the current one,
or are still in the posted set, or the destination is gone for good.
-/
structure TrackerInv (tr : MatchTracker) (hist : List Emission) : Prop where
  card_nodup : (cardKeys hist).Nodup
  sub_nodup : (subKeys hist).Nodup
  card_hist : ∀ k ∈ cardKeys hist, ∃ f, (∃ c : RawCard, k = mkCardKey f c) ∧
    f ∈ tr.threads_created_for ∧
    (tr.current_fixture_id = some f → tr.match_thread_id = none ∨ k ∈ tr.posted_card_keys)
  sub_hist : ∀ k ∈ subKeys hist, ∃ f, (∃ c : RawSub, k = mkSubKey f c) ∧
    f ∈ tr.threads_created_for ∧
    (tr.current_fixture_id = some f → tr.match_thread_id = none ∨ k ∈ tr.posted_sub_keys)
  dest_owner : tr.match_thread_id ≠ none →
    ∃ f, tr.current_fixture_id = some f ∧ f ∈ tr.threads_created_for

/-- Inputs the C1 witness evaluates the tick on: a tracked live fixture
whose tracker has not yet recorded a score. -/
def wSt1 : MatchTracker := ⟨some 42, some 7, none, [], [], false, false, [42]⟩

/-- A live first-half snapshot of fixture 42 at 1-0. -/
def wM1 : MatchState := ⟨42, "Vancouver Whitecaps FC", "Seattle Sounders FC",
  some 1, some 0, some 10, "1H", "First Half", none, "", []⟩

/-- An environment delivering that snapshot with a healthy destination. -/
def wEnv1 : TickEnv := ⟨some wM1, 0, none, true, true, true, none, [], none, [], true, true⟩

/-- Inputs the C2 witness evaluates the reset on: a tracker mid-fixture 42
with accumulated state, polled with a snapshot of fixture 43. -/
def wSt2 : MatchTracker := ⟨some 42, some 7, some (some 2, some 1), ["s1"], ["c1"],
  true, true, [42]⟩

/-- A scheduled snapshot of the next fixture 43. -/
def wM2 : MatchState := ⟨43, "Vancouver Whitecaps FC", "LAFC",
  none, none, none, "NS", "Not Started", some 900000, "", []⟩

/-- Environment delivering the fixture-43 snapshot. -/
def wEnv2 : TickEnv := ⟨some wM2, 0, some 9, true, true, true, none, [], none, [], true, true⟩

/-!
## Claim C3
-/
/-- A tracker mid-match on fixture 7 with accumulated per-match state. -/
def wSt3 : MatchTracker := ⟨some 7, some 3, some (some 1, some 0), ["s"], ["c"], true, true, [7]⟩

/-- An environment whose poll yields no snapshot at all. -/
def wEnvNone : TickEnv := ⟨none, 0, none, true, true, true, none, [], none, [], true, true⟩

/-- A standalone tracker mid-match. -/
def wTop3 : TopTracker := ⟨some 5, some "401", ["k"], true, some 9, some "in"⟩

/-!
## Claim C10
-/
/-- A tracker mid-fixture-1 with accumulated notification state. -/
def wSt10 : MatchTracker := ⟨some 1, some 3, some (some 2, some 2), ["subk"], ["cardk"],
  true, true, []⟩

/-- A far-future scheduled snapshot of a new fixture 9. -/
def wM10 : MatchState := ⟨9, "Vancouver Whitecaps FC", "Minnesota United",
  none, none, none, "NS", "Not Started", some 999999, "", []⟩

/-- Environment delivering the far-future fixture-9 snapshot. -/
def wEnv10 : TickEnv := ⟨some wM10, 0, none, true, true, true, none, [], none, [], true, true⟩

/-- A tracker mid-fixture-42 that has already announced the 1-0 score but
not halftime. -/
def wSt6 : MatchTracker := ⟨some 42, some 7, some (some 1, some 0), [], [], false, false, [42]⟩

/-- A halftime snapshot of fixture 42 at 1-0. -/
def wM6 : MatchState := ⟨42, "Vancouver Whitecaps FC", "Seattle Sounders FC",
  some 1, some 0, some 45, "HT", "Half Time", none, "", []⟩

/-- Environment delivering the halftime snapshot with healthy sends. -/
def wEnv6 : TickEnv := ⟨some wM6, 0, none, true, true, true, none, [], none, [], true, true⟩

/-- A raw card used by the C5 witness. -/
def wCard5 : RawCard := ⟨some 30, "Seattle Sounders", "Jordan Morris", "Yellow Card"⟩

/-- A tracker with no threads yet. -/
def wTr7 : MatchTracker := ⟨none, none, none, [], [], false, false, []⟩

/-- A tracker that already created the thread for fixture 5. -/
def wTr7b : MatchTracker := ⟨some 5, none, none, [], [], false, false, [5]⟩

/-- A scheduled fixture-5 snapshot kicking off in one hour. -/
def wM7 : MatchState := ⟨5, "Vancouver Whitecaps FC", "Austin FC",
  none, none, none, "NS", "Not Started", some 3600, "", []⟩

/-!
## Claim C8
-/
/-- A tracker already following fixture 5 (set on an earlier tick when the
match was more than 24 hours away, so no thread was created then). -/
def wSt8 : MatchTracker := ⟨some 5, none, none, [], [], false, false, []⟩

/-- The same fixture 5, polled again now one hour before kickoff — well
inside the thread-creation window. -/
def wM8 : MatchState := ⟨5, "Vancouver Whitecaps FC", "Austin FC",
  none, none, none, "NS", "Not Started", some 3600, "", []⟩

/-- Environment delivering that snapshot with a perfectly willing sink:
`ensure_match_thread` would succeed if it were called. -/
def wEnv8 : TickEnv := ⟨some wM8, 0, some 99, true, true, true, none, [], none, [], true, true⟩

/-- A concrete ESPN scoreboard event: Whitecaps at home, in progress. -/
def wEv4 : EspnEvent :=
  ⟨100, none, "in", "Second Half", "", "78'",
    [⟨"home", "9727", "Vancouver Whitecaps FC", some 2⟩,
     ⟨"away", "500", "Portland Timbers", some 1⟩],
    "BC Place", []⟩

/-- What the extractor produces on `wEv4`. -/
def wM4 : MatchState := ⟨100, "Vancouver Whitecaps FC", "Portland Timbers",
  some 2, some 1, some 78, "IN", "Second Half", none, "BC Place", []⟩

/-!
## Theorems
-/

theorem digitsVal_digitsLE (n : Nat) : digitsVal (digitsLE n) = n := by
  induction n using Nat.strong_induction_on with
  | _ n ih =>
    rw [digitsLE]
    by_cases h : n = 0
    · simp [h, digitsVal]
    · have hlt : n / 10 < n := Nat.div_lt_self (Nat.pos_of_ne_zero h) (by omega)
      simp only [h, dif_neg, not_false_iff, digitsVal]
      rw [ih (n / 10) hlt]
      omega

theorem digitsLE_lt10 (n : Nat) : ∀ d ∈ digitsLE n, d < 10 := by
  induction n using Nat.strong_induction_on with
  | _ n ih =>
    rw [digitsLE]
    by_cases h : n = 0
    · simp [h]
    · have hlt : n / 10 < n := Nat.div_lt_self (Nat.pos_of_ne_zero h) (by omega)
      simp only [h, dif_neg, not_false_iff, List.mem_cons]
      rintro d (rfl | hd)
      · exact Nat.mod_lt _ (by omega)
      · exact ih (n / 10) hlt d hd

theorem digitChar_inj10 : ∀ a < 10, ∀ b < 10, Nat.digitChar a = Nat.digitChar b → a = b := by
  decide

theorem digitChar_ne_colon : ∀ a < 10, Nat.digitChar a ≠ ':' := by
  decide

theorem map_digitChar_inj : ∀ (la lb : List Nat), (∀ d ∈ la, d < 10) → (∀ d ∈ lb, d < 10) →
    la.map Nat.digitChar = lb.map Nat.digitChar → la = lb := by
  intro la
  induction la with
  | nil => intro lb _ _ h; cases lb <;> simp_all
  | cons a as ih =>
    intro lb hla hlb h
    cases lb with
    | nil => simp_all
    | cons b bs =>
      simp only [List.map_cons, List.cons.injEq] at h
      have ha : a < 10 := hla a (by simp)
      have hb : b < 10 := hlb b (by simp)
      have hab : a = b := digitChar_inj10 a ha b hb h.1
      have : as = bs := ih bs (fun d hd => hla d (by simp [hd])) (fun d hd => hlb d (by simp [hd])) h.2
      simp [hab, this]

theorem natStr_data_inj (a b : Nat) (h : (natStr a).data = (natStr b).data) : a = b := by
  unfold natStr at h
  by_cases ha : a = 0 <;> by_cases hb : b = 0
  · omega
  · exfalso
    simp only [ha, if_pos, hb, if_neg, not_false_iff] at h
    have h2 : (digitsLE b).map Nat.digitChar = ['0'] := by
      have : ((digitsLE b).map Nat.digitChar).reverse = ['0'] := h.symm
      have := congrArg List.reverse this
      simpa using this
    have hlen : digitsLE b = [0] := by
      cases hd : digitsLE b with
      | nil => simp [hd] at h2
      | cons d ds =>
        cases ds with
        | nil =>
          simp only [hd, List.map_cons, List.map_nil, List.cons.injEq, and_true] at h2
          have hd10 : d < 10 := digitsLE_lt10 b d (by simp [hd])
          have : d = 0 := digitChar_inj10 d hd10 0 (by omega) (by simpa using h2)
          simp [this]
        | cons e es => simp [hd] at h2
    have := digitsVal_digitsLE b
    rw [hlen] at this
    simp [digitsVal] at this
    omega
  · exfalso
    simp only [ha, if_neg, not_false_iff, hb, if_pos] at h
    have h2 : (digitsLE a).map Nat.digitChar = ['0'] := by
      have := congrArg List.reverse h
      simpa using this
    have hlen : digitsLE a = [0] := by
      cases hd : digitsLE a with
      | nil => simp [hd] at h2
      | cons d ds =>
        cases ds with
        | nil =>
          simp only [hd, List.map_cons, List.map_nil, List.cons.injEq, and_true] at h2
          have hd10 : d < 10 := digitsLE_lt10 a d (by simp [hd])
          have : d = 0 := digitChar_inj10 d hd10 0 (by omega) (by simpa using h2)
          simp [this]
        | cons e es => simp [hd] at h2
    have := digitsVal_digitsLE a
    rw [hlen] at this
    simp [digitsVal] at this
    omega
  · simp only [ha, hb, if_neg, not_false_iff] at h
    have h2 : (digitsLE a).map Nat.digitChar = (digitsLE b).map Nat.digitChar := by
      have := congrArg List.reverse h
      simpa using this
    have := map_digitChar_inj (digitsLE a) (digitsLE b) (digitsLE_lt10 a) (digitsLE_lt10 b) h2
    have hv := digitsVal_digitsLE a
    rw [this, digitsVal_digitsLE b] at hv
    omega

theorem natStr_no_colon (n : Nat) : ':' ∉ (natStr n).data := by
  unfold natStr
  by_cases h : n = 0
  · simp only [h, if_pos]
    intro hmem
    simp [String.data] at hmem
  · simp only [h, if_neg, not_false_iff]
    intro hmem
    rw [List.mem_reverse, List.mem_map] at hmem
    obtain ⟨d, hd, hdc⟩ := hmem
    exact digitChar_ne_colon d (digitsLE_lt10 n d hd) hdc

theorem string_data_append (a b : String) : (a ++ b).data = a.data ++ b.data := rfl

theorem colonSplit : ∀ (a : List Char) (r1 : List Char) (b r2 : List Char),
    ':' ∉ a → ':' ∉ b → a ++ ':' :: r1 = b ++ ':' :: r2 → a = b := by
  intro a
  induction a with
  | nil =>
    intro r1 b r2 _ hb h
    cases b with
    | nil => rfl
    | cons x xs =>
      exfalso
      simp only [List.nil_append, List.cons_append, List.cons.injEq] at h
      exact hb (h.1 ▸ List.mem_cons_self x xs)
  | cons x xs ih =>
    intro r1 b r2 ha hb h
    cases b with
    | nil =>
      exfalso
      simp only [List.cons_append, List.nil_append, List.cons.injEq] at h
      exact ha (h.1 ▸ List.mem_cons_self x xs)
    | cons y ys =>
      simp only [List.cons_append, List.cons.injEq] at h
      have hx : ':' ∉ xs := fun hm => ha (List.mem_cons_of_mem x hm)
      have hy : ':' ∉ ys := fun hm => hb (List.mem_cons_of_mem y hm)
      have := ih r1 ys r2 hx hy h.2
      simp [h.1, this]

/-- Two dedupe keys can only be equal when they carry the same fixture id:
the decimal id is the colon-free prefix before the first separator. -/
theorem keyFixture_inj (f g : Nat) (s t : String)
    (h : natStr f ++ ":" ++ s = natStr g ++ ":" ++ t) : f = g := by
  have hd : (natStr f).data ++ ':' :: s.data = (natStr g).data ++ ':' :: t.data := by
    have h1 := congrArg String.data h
    rw [string_data_append, string_data_append, string_data_append, string_data_append] at h1
    simpa using h1
  have := colonSplit (natStr f).data s.data (natStr g).data t.data
    (natStr_no_colon f) (natStr_no_colon g) hd
  exact natStr_data_inj f g this

theorem mkSubKey_fixture_inj (f g : Nat) (s t : RawSub) (h : mkSubKey f s = mkSubKey g t) :
    f = g := keyFixture_inj f g (subKeyRest s) (subKeyRest t) h

theorem mkCardKey_fixture_inj (f g : Nat) (s t : RawCard) (h : mkCardKey f s = mkCardKey g t) :
    f = g := keyFixture_inj f g (cardKeyRest s) (cardKeyRest t) h

/-!
## Facts about the card/substitution loop
-/
theorem processKeyed_spec (mk : α → String) :
    ∀ (items : List α) (sendOk : List Bool) (keys : List String),
      keys ⊆ (processKeyed mk items sendOk keys).1 ∧
      (processKeyed mk items sendOk keys).2.1.Nodup ∧
      (∀ k ∈ (processKeyed mk items sendOk keys).2.1,
        k ∉ keys ∧ k ∈ (processKeyed mk items sendOk keys).1 ∧ ∃ c ∈ items, k = mk c) := by
  intro items
  induction items with
  | nil =>
    intro sendOk keys
    refine ⟨fun a ha => ha, by simp [processKeyed], ?_⟩
    simp [processKeyed]
  | cons c rest ih =>
    intro sendOk keys
    by_cases hmem : mk c ∈ keys
    · have heq : processKeyed mk (c :: rest) sendOk keys = processKeyed mk rest sendOk keys := by
        simp only [processKeyed, hmem, if_pos]
      rw [heq]
      obtain ⟨h1, h2, h3⟩ := ih sendOk keys
      refine ⟨h1, h2, fun k hk => ?_⟩
      obtain ⟨ha, hb, cc, hcc, hkc⟩ := h3 k hk
      exact ⟨ha, hb, cc, List.mem_cons_of_mem c hcc, hkc⟩
    · by_cases hsend : sendOk.headD true = true
      · have heq : processKeyed mk (c :: rest) sendOk keys =
            ((processKeyed mk rest sendOk.tail (mk c :: keys)).1,
              mk c :: (processKeyed mk rest sendOk.tail (mk c :: keys)).2.1,
              (processKeyed mk rest sendOk.tail (mk c :: keys)).2.2) := by
          simp only [processKeyed, hmem, if_neg, not_false_iff, hsend, if_pos]
        rw [heq]
        obtain ⟨h1, h2, h3⟩ := ih sendOk.tail (mk c :: keys)
        refine ⟨fun a ha => h1 (List.mem_cons_of_mem _ ha), ?_, ?_⟩
        · refine List.nodup_cons.mpr ⟨fun hc => ?_, h2⟩
          exact (h3 (mk c) hc).1 (List.mem_cons_self _ _)
        · intro k hk
          rcases List.mem_cons.mp hk with rfl | hk2
          · exact ⟨hmem, h1 (List.mem_cons_self _ _), c, List.mem_cons_self _ _, rfl⟩
          · obtain ⟨ha, hb, cc, hcc, hkc⟩ := h3 k hk2
            exact ⟨fun hx => ha (List.mem_cons_of_mem _ hx), hb,
              cc, List.mem_cons_of_mem c hcc, hkc⟩
      · have heq : processKeyed mk (c :: rest) sendOk keys =
            (mk c :: keys, [mk c], TickFlow.raised) := by
          simp only [processKeyed]
          rw [if_neg hmem, if_neg hsend]
        rw [heq]
        refine ⟨fun a ha => List.mem_cons_of_mem _ ha, by simp, ?_⟩
        intro k hk
        rcases List.mem_singleton.mp hk with rfl
        exact ⟨hmem, List.mem_cons_self _ _, c, List.mem_cons_self _ _, rfl⟩

theorem processKeyed_flow (mk : α → String) :
    ∀ (items : List α) (sendOk : List Bool) (keys : List String),
      (∀ b ∈ sendOk, b = true) → (processKeyed mk items sendOk keys).2.2 = .go := by
  intro items
  induction items with
  | nil => intro sendOk keys _; simp [processKeyed]
  | cons c rest ih =>
    intro sendOk keys hok
    by_cases hmem : mk c ∈ keys
    · simp only [processKeyed, hmem, if_pos]
      exact ih sendOk keys hok
    · have hsend : sendOk.headD true = true := by
        cases sendOk with
        | nil => rfl
        | cons b bs => exact hok b (List.mem_cons_self _ _)
      simp only [processKeyed, hmem, if_neg, not_false_iff, hsend, if_pos]
      exact ih sendOk.tail (mk c :: keys) fun b hb => hok b (List.mem_of_mem_tail hb)

/-!
## Sequencing and frame lemmas
-/
theorem andThen_go (r : TickResult) (f : MatchTracker → TickResult) (h : r.flow = .go) :
    r.andThen f = ⟨(f r.state).state, r.events ++ (f r.state).events, (f r.state).flow⟩ := by
  unfold TickResult.andThen
  rw [h]

theorem andThen_frame (P : MatchTracker → MatchTracker → List Emission → Prop)
    (comp : ∀ a b c e1 e2, P a b e1 → P b c e2 → P a c (e1 ++ e2))
    (r : TickResult) (f : MatchTracker → TickResult) (s : MatchTracker)
    (hr : P s r.state r.events) (hf : ∀ x, P x (f x).state (f x).events) :
    P s (r.andThen f).state (r.andThen f).events := by
  unfold TickResult.andThen
  cases hflow : r.flow with
  | go => exact comp _ _ _ _ _ hr (hf r.state)
  | done => exact hr
  | raised => exact hr

theorem cardKeys_append (a b : List Emission) : cardKeys (a ++ b) = cardKeys a ++ cardKeys b := by
  simp [cardKeys]

theorem subKeys_append (a b : List Emission) : subKeys (a ++ b) = subKeys a ++ subKeys b := by
  simp [subKeys]

theorem goalScores_append (a b : List Emission) :
    goalScores (a ++ b) = goalScores a ++ goalScores b := by
  simp [goalScores]

theorem countHt_append (a b : List Emission) : countHt (a ++ b) = countHt a + countHt b := by
  simp [countHt]

theorem countFt_append (a b : List Emission) : countFt (a ++ b) = countFt a + countFt b := by
  simp [countFt]

theorem cardKeys_map_card (l : List String) : cardKeys (l.map Emission.card) = l := by
  induction l with
  | nil => rfl
  | cons a as ih => simp [cardKeys] at ih ⊢; exact ih

theorem subKeys_map_sub (l : List String) : subKeys (l.map Emission.sub) = l := by
  induction l with
  | nil => rfl
  | cons a as ih => simp [subKeys] at ih ⊢; exact ih

theorem subKeys_map_card (l : List String) : subKeys (l.map Emission.card) = [] := by
  induction l with
  | nil => rfl
  | cons a as ih => simp [subKeys]

theorem cardKeys_map_sub (l : List String) : cardKeys (l.map Emission.sub) = [] := by
  induction l with
  | nil => rfl
  | cons a as ih => simp [cardKeys]

theorem postedFacts_refl (fid : Nat) (s : MatchTracker) : PostedFacts fid s s [] :=
  ⟨rfl, rfl, rfl, fun _ ha => ha, fun _ ha => ha, by simp [cardKeys], by simp [subKeys],
    by simp [cardKeys], by simp [subKeys]⟩

theorem postedFacts_comp (fid : Nat) : ∀ (a b c : MatchTracker) (e1 e2 : List Emission),
    PostedFacts fid a b e1 → PostedFacts fid b c e2 → PostedFacts fid a c (e1 ++ e2) := by
  intro a b c e1 e2 h1 h2
  refine ⟨h2.current_eq.trans h1.current_eq, h2.thread_eq.trans h1.thread_eq,
    h2.threads_eq.trans h1.threads_eq,
    fun x hx => h2.card_grow (h1.card_grow hx),
    fun x hx => h2.sub_grow (h1.sub_grow hx), ?_, ?_, ?_, ?_⟩
  · rw [cardKeys_append]
    refine List.Nodup.append h1.card_nodup h2.card_nodup ?_
    intro k hk1 hk2
    exact (h2.card_facts k hk2).1 ((h1.card_facts k hk1).2.1)
  · rw [subKeys_append]
    refine List.Nodup.append h1.sub_nodup h2.sub_nodup ?_
    intro k hk1 hk2
    exact (h2.sub_facts k hk2).1 ((h1.sub_facts k hk1).2.1)
  · rw [cardKeys_append]
    intro k hk
    rcases List.mem_append.mp hk with hk1 | hk2
    · obtain ⟨hna, hb, hc⟩ := h1.card_facts k hk1
      exact ⟨hna, h2.card_grow hb, hc⟩
    · obtain ⟨hnb, hc2, hc⟩ := h2.card_facts k hk2
      exact ⟨fun hx => hnb (h1.card_grow hx), hc2, hc⟩
  · rw [subKeys_append]
    intro k hk
    rcases List.mem_append.mp hk with hk1 | hk2
    · obtain ⟨hna, hb, hc⟩ := h1.sub_facts k hk1
      exact ⟨hna, h2.sub_grow hb, hc⟩
    · obtain ⟨hnb, hc2, hc⟩ := h2.sub_facts k hk2
      exact ⟨fun hx => hnb (h1.sub_grow hx), hc2, hc⟩

theorem goalStep_pf (fid : Nat) (s : MatchTracker) (m : MatchState) (env : TickEnv) :
    PostedFacts fid s (goalStep s m env).state (goalStep s m env).events := by
  unfold goalStep
  split
  · exact ⟨rfl, rfl, rfl, fun _ ha => ha, fun _ ha => ha, by simp [cardKeys],
      by simp [subKeys], by simp [cardKeys], by simp [subKeys]⟩
  · exact postedFacts_refl fid s

theorem htStep_pf (fid : Nat) (s : MatchTracker) (m : MatchState) (env : TickEnv) :
    PostedFacts fid s (htStep s m env).state (htStep s m env).events := by
  unfold htStep
  split
  · exact ⟨rfl, rfl, rfl, fun _ ha => ha, fun _ ha => ha, by simp [cardKeys],
      by simp [subKeys], by simp [cardKeys], by simp [subKeys]⟩
  · exact postedFacts_refl fid s

theorem ftStep_pf (fid : Nat) (s : MatchTracker) (m : MatchState) (env : TickEnv) :
    PostedFacts fid s (ftStep s m env).state (ftStep s m env).events := by
  unfold ftStep
  split
  · exact ⟨rfl, rfl, rfl, fun _ ha => ha, fun _ ha => ha, by simp [cardKeys],
      by simp [subKeys], by simp [cardKeys], by simp [subKeys]⟩
  · exact postedFacts_refl fid s

theorem cardStep_pf (s : MatchTracker) (m : MatchState) (env : TickEnv) :
    PostedFacts m.fixture_id s (cardStep s m env).state (cardStep s m env).events := by
  unfold cardStep
  split
  · cases hc : env.cards with
    | none => exact postedFacts_refl _ s
    | some cs =>
      obtain ⟨h1, h2, h3⟩ :=
        processKeyed_spec (mkCardKey m.fixture_id) cs env.cardSendOk s.posted_card_keys
      refine ⟨rfl, rfl, rfl, h1, fun _ ha => ha, ?_, ?_, ?_, ?_⟩
      · rw [cardKeys_map_card]; exact h2
      · rw [subKeys_map_card]; exact List.nodup_nil
      · rw [cardKeys_map_card]
        intro k hk
        obtain ⟨ha, hb, c2, _, hkc⟩ := h3 k hk
        exact ⟨ha, hb, c2, hkc⟩
      · rw [subKeys_map_card]
        intro k hk
        exact absurd hk (List.not_mem_nil k)
  · exact postedFacts_refl _ s

theorem subStep_pf (s : MatchTracker) (m : MatchState) (env : TickEnv) :
    PostedFacts m.fixture_id s (subStep s m env).state (subStep s m env).events := by
  unfold subStep
  split
  · cases hc : env.subs with
    | none => exact postedFacts_refl _ s
    | some ss =>
      obtain ⟨h1, h2, h3⟩ :=
        processKeyed_spec (mkSubKey m.fixture_id) ss env.subSendOk s.posted_sub_keys
      refine ⟨rfl, rfl, rfl, fun _ ha => ha, h1, ?_, ?_, ?_, ?_⟩
      · rw [cardKeys_map_sub]; exact List.nodup_nil
      · rw [subKeys_map_sub]; exact h2
      · rw [cardKeys_map_sub]
        intro k hk
        exact absurd hk (List.not_mem_nil k)
      · rw [subKeys_map_sub]
        intro k hk
        obtain ⟨ha, hb, c2, _, hkc⟩ := h3 k hk
        exact ⟨ha, hb, c2, hkc⟩
  · exact postedFacts_refl _ s

theorem liveSteps_pf (s : MatchTracker) (m : MatchState) (env : TickEnv) :
    PostedFacts m.fixture_id s (liveSteps s m env).state (liveSteps s m env).events := by
  unfold liveSteps
  refine andThen_frame _ (postedFacts_comp _) _ _ _ (goalStep_pf _ s m env) fun x => ?_
  refine andThen_frame _ (postedFacts_comp _) _ _ _ (cardStep_pf x m env) fun y => ?_
  refine andThen_frame _ (postedFacts_comp _) _ _ _ (subStep_pf y m env) fun z => ?_
  exact andThen_frame _ (postedFacts_comp _) _ _ _ (htStep_pf _ z m env)
    fun w => ftStep_pf _ w m env

/-!
## Tick unfolding lemmas
-/
theorem cardKeys_threadLive_cons (l : List Emission) :
    cardKeys (Emission.threadLive :: l) = cardKeys l := by simp [cardKeys]

theorem subKeys_threadLive_cons (l : List Emission) :
    subKeys (Emission.threadLive :: l) = subKeys l := by simp [subKeys]

theorem update_once_none (tr : MatchTracker) (env : TickEnv) (h : env.poll = none) :
    update_once tr env = ⟨tr, [], .done⟩ := by
  unfold update_once
  rw [h]

theorem update_once_same (tr : MatchTracker) (env : TickEnv) (m : MatchState)
    (h : env.poll = some m) (hc : tr.current_fixture_id = some m.fixture_id) :
    update_once tr env = destAndLive tr m env := by
  unfold update_once
  rw [h]
  simp only [hc, if_pos]

theorem update_once_diff (tr : MatchTracker) (env : TickEnv) (m : MatchState)
    (h : env.poll = some m) (hc : ¬tr.current_fixture_id = some m.fixture_id) :
    update_once tr env =
      (threadStepChanged (resetForFixture tr m) m env).andThen fun tr2 =>
        destAndLive tr2 m env := by
  unfold update_once
  rw [h]
  simp only [hc, if_neg, not_false_iff]

theorem destAndLive_no_thread (tr : MatchTracker) (m : MatchState) (env : TickEnv)
    (h : tr.match_thread_id = none) : destAndLive tr m env = ⟨tr, [], .done⟩ := by
  unfold destAndLive
  rw [h]

theorem destAndLive_unresolved (tr : MatchTracker) (m : MatchState) (env : TickEnv)
    (tid : Nat) (h : tr.match_thread_id = some tid) (hc : ¬env.chanResolves = true) :
    destAndLive tr m env = ⟨tr, [], .done⟩ := by
  unfold destAndLive
  rw [h, if_neg hc]

theorem destAndLive_live (tr : MatchTracker) (m : MatchState) (env : TickEnv)
    (tid : Nat) (h : tr.match_thread_id = some tid) (hc : env.chanResolves = true) :
    destAndLive tr m env = liveSteps tr m env := by
  unfold destAndLive
  rw [h]
  simp only [hc, if_pos]

theorem sct_not_mem (tr : MatchTracker) (m : MatchState) (now : Int)
    (h : should_create_thread tr m now = true) :
    m.fixture_id ∉ tr.threads_created_for := by
  intro hmem
  unfold should_create_thread at h
  rw [if_pos hmem] at h
  simp at h

theorem threadStepChanged_skip (tr : MatchTracker) (m : MatchState) (env : TickEnv)
    (h : ¬should_create_thread tr m env.now = true) :
    threadStepChanged tr m env = ⟨tr, [], .go⟩ := by
  unfold threadStepChanged
  rw [if_neg h]

theorem threadStepChanged_fail (tr : MatchTracker) (m : MatchState) (env : TickEnv)
    (h : should_create_thread tr m env.now = true) (he : env.ensureResult = none) :
    threadStepChanged tr m env = ⟨tr, [], .raised⟩ := by
  unfold threadStepChanged
  rw [if_pos h, he]

theorem threadStepChanged_create (tr : MatchTracker) (m : MatchState) (env : TickEnv)
    (tid : Nat) (h : should_create_thread tr m env.now = true)
    (he : env.ensureResult = some tid) :
    threadStepChanged tr m env =
      ⟨{ tr with
          match_thread_id := some tid
          threads_created_for := m.fixture_id :: tr.threads_created_for },
        [.threadLive], if env.annOk then .go else .raised⟩ := by
  unfold threadStepChanged
  rw [if_pos h, he]
  simp only [sct_not_mem tr m env.now h, if_neg, not_false_iff]

theorem trackerInv_init : TrackerInv MatchTracker.init [] := by
  refine ⟨by simp [cardKeys], by simp [subKeys], ?_, ?_, ?_⟩
  · intro k hk; simp [cardKeys] at hk
  · intro k hk; simp [subKeys] at hk
  · intro h; exact absurd rfl h

theorem inv_after_reset (tr : MatchTracker) (m : MatchState) (hist : List Emission)
    (hInv : TrackerInv tr hist) : TrackerInv (resetForFixture tr m) hist := by
  refine ⟨hInv.card_nodup, hInv.sub_nodup, ?_, ?_, ?_⟩
  · intro k hk
    obtain ⟨f, hkf, hfm, _⟩ := hInv.card_hist k hk
    exact ⟨f, hkf, hfm, fun _ => Or.inl rfl⟩
  · intro k hk
    obtain ⟨f, hkf, hfm, _⟩ := hInv.sub_hist k hk
    exact ⟨f, hkf, hfm, fun _ => Or.inl rfl⟩
  · intro h
    exact absurd rfl h

theorem inv_created_live (tr st2 t : MatchTracker) (m : MatchState)
    (hist evs : List Emission)
    (hInv : TrackerInv tr hist)
    (hnot : m.fixture_id ∉ tr.threads_created_for)
    (hpf : PostedFacts m.fixture_id st2 t evs)
    (h2cur : st2.current_fixture_id = some m.fixture_id)
    (h2thr : st2.threads_created_for = m.fixture_id :: tr.threads_created_for) :
    TrackerInv t (hist ++ (Emission.threadLive :: evs)) := by
  have hthreads : t.threads_created_for = m.fixture_id :: tr.threads_created_for :=
    hpf.threads_eq.trans h2thr
  have hcur : t.current_fixture_id = some m.fixture_id := hpf.current_eq.trans h2cur
  refine ⟨?_, ?_, ?_, ?_, ?_⟩
  · rw [cardKeys_append, cardKeys_threadLive_cons]
    refine List.Nodup.append hInv.card_nodup hpf.card_nodup ?_
    intro k hk1 hk2
    obtain ⟨f, ⟨c1, hkc1⟩, hfm, _⟩ := hInv.card_hist k hk1
    obtain ⟨_, _, c2, hkc2⟩ := hpf.card_facts k hk2
    have : f = m.fixture_id := mkCardKey_fixture_inj f m.fixture_id c1 c2 (hkc1 ▸ hkc2)
    exact hnot (this ▸ hfm)
  · rw [subKeys_append, subKeys_threadLive_cons]
    refine List.Nodup.append hInv.sub_nodup hpf.sub_nodup ?_
    intro k hk1 hk2
    obtain ⟨f, ⟨c1, hkc1⟩, hfm, _⟩ := hInv.sub_hist k hk1
    obtain ⟨_, _, c2, hkc2⟩ := hpf.sub_facts k hk2
    have : f = m.fixture_id := mkSubKey_fixture_inj f m.fixture_id c1 c2 (hkc1 ▸ hkc2)
    exact hnot (this ▸ hfm)
  · rw [cardKeys_append, cardKeys_threadLive_cons]
    intro k hk
    rcases List.mem_append.mp hk with hk1 | hk2
    · obtain ⟨f, hkf, hfm, _⟩ := hInv.card_hist k hk1
      refine ⟨f, hkf, hthreads ▸ List.mem_cons_of_mem _ hfm, fun hcf => ?_⟩
      exfalso
      rw [hcur] at hcf
      have : f = m.fixture_id := by injection hcf.symm
      exact hnot (this ▸ hfm)
    · obtain ⟨_, hmem, c, hkc⟩ := hpf.card_facts k hk2
      exact ⟨m.fixture_id, ⟨c, hkc⟩, hthreads ▸ List.mem_cons_self _ _,
        fun _ => Or.inr hmem⟩
  · rw [subKeys_append, subKeys_threadLive_cons]
    intro k hk
    rcases List.mem_append.mp hk with hk1 | hk2
    · obtain ⟨f, hkf, hfm, _⟩ := hInv.sub_hist k hk1
      refine ⟨f, hkf, hthreads ▸ List.mem_cons_of_mem _ hfm, fun hcf => ?_⟩
      exfalso
      rw [hcur] at hcf
      have : f = m.fixture_id := by injection hcf.symm
      exact hnot (this ▸ hfm)
    · obtain ⟨_, hmem, c, hkc⟩ := hpf.sub_facts k hk2
      exact ⟨m.fixture_id, ⟨c, hkc⟩, hthreads ▸ List.mem_cons_self _ _,
        fun _ => Or.inr hmem⟩
  · intro _
    exact ⟨m.fixture_id, hcur, hthreads ▸ List.mem_cons_self _ _⟩

theorem inv_live_unchanged (tr t : MatchTracker) (m : MatchState) (tid : Nat)
    (hist evs : List Emission)
    (hInv : TrackerInv tr hist)
    (hcur : tr.current_fixture_id = some m.fixture_id)
    (hthr : tr.match_thread_id = some tid)
    (hpf : PostedFacts m.fixture_id tr t evs) :
    TrackerInv t (hist ++ evs) := by
  obtain ⟨f0, hf0c, hf0m⟩ := hInv.dest_owner (by rw [hthr]; exact Option.some_ne_none tid)
  have hf0 : f0 = m.fixture_id := by
    rw [hcur] at hf0c
    injection hf0c with hh
    exact hh.symm
  have hfidm : m.fixture_id ∈ tr.threads_created_for := hf0 ▸ hf0m
  refine ⟨?_, ?_, ?_, ?_, ?_⟩
  · rw [cardKeys_append]
    refine List.Nodup.append hInv.card_nodup hpf.card_nodup ?_
    intro k hk1 hk2
    obtain ⟨f, ⟨c1, hkc1⟩, hfm, himp⟩ := hInv.card_hist k hk1
    obtain ⟨hnp, _, c2, hkc2⟩ := hpf.card_facts k hk2
    have hf : f = m.fixture_id := mkCardKey_fixture_inj f m.fixture_id c1 c2 (hkc1 ▸ hkc2)
    rcases himp (hf ▸ hcur) with hnone | hin
    · rw [hthr] at hnone; exact Option.noConfusion hnone
    · exact hnp hin
  · rw [subKeys_append]
    refine List.Nodup.append hInv.sub_nodup hpf.sub_nodup ?_
    intro k hk1 hk2
    obtain ⟨f, ⟨c1, hkc1⟩, hfm, himp⟩ := hInv.sub_hist k hk1
    obtain ⟨hnp, _, c2, hkc2⟩ := hpf.sub_facts k hk2
    have hf : f = m.fixture_id := mkSubKey_fixture_inj f m.fixture_id c1 c2 (hkc1 ▸ hkc2)
    rcases himp (hf ▸ hcur) with hnone | hin
    · rw [hthr] at hnone; exact Option.noConfusion hnone
    · exact hnp hin
  · rw [cardKeys_append]
    intro k hk
    rcases List.mem_append.mp hk with hk1 | hk2
    · obtain ⟨f, hkf, hfm, himp⟩ := hInv.card_hist k hk1
      refine ⟨f, hkf, hpf.threads_eq ▸ hfm, fun hcf => ?_⟩
      rcases himp (hpf.current_eq ▸ hcf) with hnone | hin
      · rw [hthr] at hnone; exact Option.noConfusion hnone
      · exact Or.inr (hpf.card_grow hin)
    · obtain ⟨_, hmem, c, hkc⟩ := hpf.card_facts k hk2
      exact ⟨m.fixture_id, ⟨c, hkc⟩, hpf.threads_eq ▸ hfidm, fun _ => Or.inr hmem⟩
  · rw [subKeys_append]
    intro k hk
    rcases List.mem_append.mp hk with hk1 | hk2
    · obtain ⟨f, hkf, hfm, himp⟩ := hInv.sub_hist k hk1
      refine ⟨f, hkf, hpf.threads_eq ▸ hfm, fun hcf => ?_⟩
      rcases himp (hpf.current_eq ▸ hcf) with hnone | hin
      · rw [hthr] at hnone; exact Option.noConfusion hnone
      · exact Or.inr (hpf.sub_grow hin)
    · obtain ⟨_, hmem, c, hkc⟩ := hpf.sub_facts k hk2
      exact ⟨m.fixture_id, ⟨c, hkc⟩, hpf.threads_eq ▸ hfidm, fun _ => Or.inr hmem⟩
  · intro _
    exact ⟨m.fixture_id, hpf.current_eq ▸ hcur, hpf.threads_eq ▸ hfidm⟩

theorem andThen_mk_go (s : MatchTracker) (evs : List Emission) (f : MatchTracker → TickResult) :
    (TickResult.mk s evs .go).andThen f = ⟨(f s).state, evs ++ (f s).events, (f s).flow⟩ := rfl

theorem andThen_mk_done (s : MatchTracker) (evs : List Emission) (f : MatchTracker → TickResult) :
    (TickResult.mk s evs .done).andThen f = ⟨s, evs, .done⟩ := rfl

theorem andThen_mk_raised (s : MatchTracker) (evs : List Emission) (f : MatchTracker → TickResult) :
    (TickResult.mk s evs .raised).andThen f = ⟨s, evs, .raised⟩ := rfl

/-- One tick preserves the dedupe invariant, whatever the environment does. -/
theorem update_once_inv (tr : MatchTracker) (env : TickEnv) (hist : List Emission)
    (hInv : TrackerInv tr hist) :
    TrackerInv (update_once tr env).state (hist ++ (update_once tr env).events) := by
  cases hp : env.poll with
  | none =>
    rw [update_once_none tr env hp]
    simpa using hInv
  | some m =>
    by_cases hc : tr.current_fixture_id = some m.fixture_id
    · rw [update_once_same tr env m hp hc]
      cases ht : tr.match_thread_id with
      | none =>
        rw [destAndLive_no_thread tr m env ht]
        simpa using hInv
      | some tid =>
        by_cases hch : env.chanResolves = true
        · rw [destAndLive_live tr m env tid ht hch]
          exact inv_live_unchanged tr _ m tid hist _ hInv hc ht (liveSteps_pf tr m env)
        · rw [destAndLive_unresolved tr m env tid ht hch]
          simpa using hInv
    · rw [update_once_diff tr env m hp hc]
      by_cases hs : should_create_thread (resetForFixture tr m) m env.now = true
      · cases he : env.ensureResult with
        | none =>
          rw [threadStepChanged_fail _ m env hs he, andThen_mk_raised]
          rw [List.append_nil]
          exact inv_after_reset tr m hist hInv
        | some tid =>
          rw [threadStepChanged_create _ m env tid hs he]
          have hnot : m.fixture_id ∉ tr.threads_created_for :=
            sct_not_mem (resetForFixture tr m) m env.now hs
          by_cases ha : env.annOk = true
          · rw [if_pos ha, andThen_mk_go]
            cases hch : env.chanResolves with
            | true =>
              rw [destAndLive_live _ m env tid rfl hch, List.singleton_append]
              exact inv_created_live tr _ _ m hist _ hInv hnot
                (liveSteps_pf _ m env) rfl rfl
            | false =>
              rw [destAndLive_unresolved _ m env tid rfl (by simp [hch])]
              rw [List.append_nil]
              exact inv_created_live tr _ _ m hist [] hInv hnot
                (postedFacts_refl _ _) rfl rfl
          · rw [if_neg ha, andThen_mk_raised]
            exact inv_created_live tr _ _ m hist [] hInv hnot
              (postedFacts_refl _ _) rfl rfl
      · rw [threadStepChanged_skip _ m env hs, andThen_mk_go,
          destAndLive_no_thread _ m env rfl]
        simpa using inv_after_reset tr m hist hInv

/-- Runs preserve the dedupe invariant. -/
theorem runTicks_inv : ∀ (envs : List TickEnv) (tr : MatchTracker) (hist : List Emission),
    TrackerInv tr hist →
    TrackerInv (runTicks tr envs).1 (hist ++ (runTicks tr envs).2) := by
  intro envs
  induction envs with
  | nil =>
    intro tr hist h
    simpa [runTicks] using h
  | cons e rest ih =>
    intro tr hist h
    have h1 := update_once_inv tr e hist h
    have h2 := ih (update_once tr e).state (hist ++ (update_once tr e).events) h1
    simpa [runTicks, List.append_assoc] using h2

/-!
## Score-frame lemmas: the steps after the goal block neither emit goals nor
touch `last_score`
-/
theorem goalScores_map_card (l : List String) : goalScores (l.map Emission.card) = [] := by
  induction l with
  | nil => rfl
  | cons a as ih => simp [goalScores]

theorem goalScores_map_sub (l : List String) : goalScores (l.map Emission.sub) = [] := by
  induction l with
  | nil => rfl
  | cons a as ih => simp [goalScores]

theorem andThen_score (r : TickResult) (f : MatchTracker → TickResult)
    (hf : ∀ x, (f x).state.last_score = x.last_score ∧ goalScores (f x).events = []) :
    (r.andThen f).state.last_score = r.state.last_score ∧
    goalScores (r.andThen f).events = goalScores r.events := by
  unfold TickResult.andThen
  cases r.flow with
  | go =>
    refine ⟨(hf r.state).1, ?_⟩
    rw [goalScores_append, (hf r.state).2, List.append_nil]
  | done => exact ⟨rfl, rfl⟩
  | raised => exact ⟨rfl, rfl⟩

theorem cardStep_score (s : MatchTracker) (m : MatchState) (env : TickEnv) :
    (cardStep s m env).state.last_score = s.last_score ∧
    goalScores (cardStep s m env).events = [] := by
  unfold cardStep
  split
  · cases env.cards with
    | none => exact ⟨rfl, rfl⟩
    | some cs => exact ⟨rfl, goalScores_map_card _⟩
  · exact ⟨rfl, rfl⟩

theorem subStep_score (s : MatchTracker) (m : MatchState) (env : TickEnv) :
    (subStep s m env).state.last_score = s.last_score ∧
    goalScores (subStep s m env).events = [] := by
  unfold subStep
  split
  · cases env.subs with
    | none => exact ⟨rfl, rfl⟩
    | some ss => exact ⟨rfl, goalScores_map_sub _⟩
  · exact ⟨rfl, rfl⟩

theorem htStep_score (s : MatchTracker) (m : MatchState) (env : TickEnv) :
    (htStep s m env).state.last_score = s.last_score ∧
    goalScores (htStep s m env).events = [] := by
  unfold htStep
  split
  · exact ⟨rfl, by simp [goalScores]⟩
  · exact ⟨rfl, rfl⟩

theorem ftStep_score (s : MatchTracker) (m : MatchState) (env : TickEnv) :
    (ftStep s m env).state.last_score = s.last_score ∧
    goalScores (ftStep s m env).events = [] := by
  unfold ftStep
  split
  · exact ⟨rfl, by simp [goalScores]⟩
  · exact ⟨rfl, rfl⟩

theorem liveSteps_score (s : MatchTracker) (m : MatchState) (env : TickEnv) :
    (liveSteps s m env).state.last_score = (goalStep s m env).state.last_score ∧
    goalScores (liveSteps s m env).events = goalScores (goalStep s m env).events := by
  unfold liveSteps
  apply andThen_score
  intro x
  have hcs := cardStep_score x m env
  have h4 := andThen_score (cardStep x m env) _ fun y => by
    have hss := subStep_score y m env
    have h5 := andThen_score (subStep y m env) _ fun z => by
      have hhs := htStep_score z m env
      have h6 := andThen_score (htStep z m env) _ fun w => ftStep_score w m env
      exact ⟨h6.1.trans hhs.1, h6.2.trans hhs.2⟩
    exact ⟨h5.1.trans hss.1, h5.2.trans hss.2⟩
  exact ⟨h4.1.trans hcs.1, h4.2.trans hcs.2⟩

theorem goalStep_spec (s : MatchTracker) (m : MatchState) (env : TickEnv) :
    goalScores (goalStep s m env).events =
      (if m.state = "in" ∧ s.last_score ≠ some (m.home_goals, m.away_goals)
        then [(m.home_goals, m.away_goals)] else []) ∧
    (goalStep s m env).state.last_score =
      (if m.state = "in" ∧ s.last_score ≠ some (m.home_goals, m.away_goals)
        then some (m.home_goals, m.away_goals) else s.last_score) := by
  unfold goalStep
  by_cases h : m.state = "in" ∧ s.last_score ≠ some (m.home_goals, m.away_goals)
  · rw [if_pos h, if_pos h, if_pos h]
    exact ⟨by simp [goalScores], rfl⟩
  · rw [if_neg h, if_neg h, if_neg h]
    exact ⟨rfl, rfl⟩

/-!
## Claim C1
-/
/-- C1: on a poll of the tracked fixture (`current_fixture_id` already equals
the snapshot's id) with a resolvable destination and phase in-progress or
halftime (`state = "in"`), the tick emits a goal notification exactly when the
snapshot's `(home_goals, away_goals)` pair differs from `last_score` —
including `last_score = none` on the first live poll — and afterwards
`last_score` equals the snapshot's pair; hence a second poll of the same
fixture with the same score pair emits no goal notification (whatever its
phase or destination situation). -/
theorem claim_C1 (st : MatchTracker) (m : MatchState) (env : TickEnv) (tid : Nat)
    (hpoll : env.poll = some m)
    (htracked : st.current_fixture_id = some m.fixture_id)
    (hthread : st.match_thread_id = some tid)
    (hchan : env.chanResolves = true)
    (hlive : m.state = "in") :
    (goalScores (update_once st env).events =
      if st.last_score ≠ some (m.home_goals, m.away_goals)
        then [(m.home_goals, m.away_goals)] else []) ∧
    (update_once st env).state.last_score = some (m.home_goals, m.away_goals) ∧
    (∀ (env2 : TickEnv) (m2 : MatchState), env2.poll = some m2 →
      m2.fixture_id = m.fixture_id → m2.home_goals = m.home_goals →
      m2.away_goals = m.away_goals →
      goalScores (update_once (update_once st env).state env2).events = []) := by
  have hreq := update_once_same st env m hpoll htracked
  have hdl := destAndLive_live st m env tid hthread hchan
  have hls := liveSteps_score st m env
  have hgs := goalStep_spec st m env
  have hmain1 : goalScores (update_once st env).events =
      (if st.last_score ≠ some (m.home_goals, m.away_goals)
        then [(m.home_goals, m.away_goals)] else []) := by
    rw [hreq, hdl, hls.2, hgs.1]
    by_cases hd : st.last_score ≠ some (m.home_goals, m.away_goals)
    · rw [if_pos ⟨hlive, hd⟩, if_pos hd]
    · rw [if_neg fun hh => hd hh.2, if_neg hd]
  have hmain2 : (update_once st env).state.last_score =
      some (m.home_goals, m.away_goals) := by
    rw [hreq, hdl, hls.1, hgs.2]
    by_cases hd : st.last_score ≠ some (m.home_goals, m.away_goals)
    · rw [if_pos ⟨hlive, hd⟩]
    · rw [if_neg fun hh => hd hh.2]
      push_neg at hd
      exact hd
  refine ⟨hmain1, hmain2, ?_⟩
  intro env2 m2 hp2 hf2 hh2 ha2
  have hpf := liveSteps_pf st m env
  have hcur2 : (update_once st env).state.current_fixture_id = some m2.fixture_id := by
    rw [hreq, hdl, hpf.current_eq, htracked, hf2]
  have hth2 : (update_once st env).state.match_thread_id = some tid := by
    rw [hreq, hdl, hpf.thread_eq, hthread]
  have hls2 : (update_once st env).state.last_score =
      some (m2.home_goals, m2.away_goals) := by
    rw [hh2, ha2]
    exact hmain2
  rw [update_once_same _ env2 m2 hp2 hcur2]
  by_cases hch2 : env2.chanResolves = true
  · rw [destAndLive_live _ m2 env2 tid hth2 hch2]
    rw [(liveSteps_score _ m2 env2).2, (goalStep_spec _ m2 env2).1]
    rw [if_neg]
    intro hcond
    exact hcond.2 hls2
  · rw [destAndLive_unresolved _ m2 env2 tid hth2 hch2]
    rfl

theorem claim_C1_witness :
    goalScores (update_once wSt1 wEnv1).events = [(some 1, some 0)] ∧
    (update_once wSt1 wEnv1).state.last_score = some (some 1, some 0) ∧
    goalScores (update_once (update_once wSt1 wEnv1).state wEnv1).events = [] := by
  have h := claim_C1 wSt1 wM1 wEnv1 7 rfl rfl rfl rfl (by decide)
  refine ⟨?_, h.2.1, h.2.2 wEnv1 wM1 rfl rfl rfl rfl⟩
  rw [h.1, if_pos (by decide)]
  rfl

/-!
## Claim C2
-/
theorem threadStepChanged_current (tr : MatchTracker) (m : MatchState) (env : TickEnv) :
    (threadStepChanged tr m env).state.current_fixture_id = tr.current_fixture_id := by
  unfold threadStepChanged
  split
  · cases env.ensureResult with
    | none => rfl
    | some tid => rfl
  · rfl

theorem threadStepChanged_threads (tr : MatchTracker) (m : MatchState) (env : TickEnv) :
    tr.threads_created_for ⊆ (threadStepChanged tr m env).state.threads_created_for := by
  unfold threadStepChanged
  split
  · cases env.ensureResult with
    | none => exact fun a ha => ha
    | some tid =>
      intro a ha
      by_cases hm : m.fixture_id ∈ tr.threads_created_for
      · simpa [hm] using ha
      · simp only [hm, if_neg, not_false_iff]
        exact List.mem_cons_of_mem _ ha
  · exact fun a ha => ha

theorem destAndLive_current (tr : MatchTracker) (m : MatchState) (env : TickEnv) :
    (destAndLive tr m env).state.current_fixture_id = tr.current_fixture_id := by
  unfold destAndLive
  cases ht : tr.match_thread_id with
  | none => rfl
  | some tid =>
    by_cases hch : env.chanResolves = true
    · rw [if_pos hch]
      exact (liveSteps_pf tr m env).current_eq
    · rw [if_neg hch]

theorem destAndLive_threads (tr : MatchTracker) (m : MatchState) (env : TickEnv) :
    (destAndLive tr m env).state.threads_created_for = tr.threads_created_for := by
  unfold destAndLive
  cases ht : tr.match_thread_id with
  | none => rfl
  | some tid =>
    by_cases hch : env.chanResolves = true
    · rw [if_pos hch]
      exact (liveSteps_pf tr m env).threads_eq
    · rw [if_neg hch]

theorem update_once_current (tr : MatchTracker) (env : TickEnv) (m : MatchState)
    (hp : env.poll = some m) :
    (update_once tr env).state.current_fixture_id = some m.fixture_id := by
  by_cases hc : tr.current_fixture_id = some m.fixture_id
  · rw [update_once_same tr env m hp hc, destAndLive_current, hc]
  · rw [update_once_diff tr env m hp hc]
    unfold TickResult.andThen
    cases hf : (threadStepChanged (resetForFixture tr m) m env).flow with
    | go =>
      show (destAndLive (threadStepChanged (resetForFixture tr m) m env).state
          m env).state.current_fixture_id = some m.fixture_id
      rw [destAndLive_current, threadStepChanged_current]
      rfl
    | done =>
      show (threadStepChanged (resetForFixture tr m) m env).state.current_fixture_id =
        some m.fixture_id
      rw [threadStepChanged_current]
      rfl
    | raised =>
      show (threadStepChanged (resetForFixture tr m) m env).state.current_fixture_id =
        some m.fixture_id
      rw [threadStepChanged_current]
      rfl

theorem update_once_threads (tr : MatchTracker) (env : TickEnv) :
    tr.threads_created_for ⊆ (update_once tr env).state.threads_created_for := by
  cases hp : env.poll with
  | none =>
    rw [update_once_none tr env hp]
    exact fun a ha => ha
  | some m =>
    by_cases hc : tr.current_fixture_id = some m.fixture_id
    · rw [update_once_same tr env m hp hc, destAndLive_threads]
      exact fun a ha => ha
    · rw [update_once_diff tr env m hp hc]
      unfold TickResult.andThen
      cases hf : (threadStepChanged (resetForFixture tr m) m env).flow with
      | go =>
        show tr.threads_created_for ⊆
          (destAndLive (threadStepChanged (resetForFixture tr m) m env).state
            m env).state.threads_created_for
        rw [destAndLive_threads]
        exact threadStepChanged_threads (resetForFixture tr m) m env
      | done =>
        show tr.threads_created_for ⊆
          (threadStepChanged (resetForFixture tr m) m env).state.threads_created_for
        exact threadStepChanged_threads (resetForFixture tr m) m env
      | raised =>
        show tr.threads_created_for ⊆
          (threadStepChanged (resetForFixture tr m) m env).state.threads_created_for
        exact threadStepChanged_threads (resetForFixture tr m) m env

theorem runTicks_threads : ∀ (envs : List TickEnv) (tr : MatchTracker),
    tr.threads_created_for ⊆ (runTicks tr envs).1.threads_created_for := by
  intro envs
  induction envs with
  | nil => intro tr; exact fun a ha => ha
  | cons e rest ih =>
    intro tr
    intro a ha
    exact ih (update_once tr e).state (update_once_threads tr e ha)

/-- C2: on a poll whose fixture id differs from `current_fixture_id`, the
tick factors through the fixture-change step, which resets every per-match
field together — `last_score` to none, both announced-key sets to empty, both
posted flags to false, the thread handle to none — sets `current_fixture_id`
to the new id, and leaves `threads_created_for` untouched; the tick as a
whole ends with `current_fixture_id` at the new id; and no tracker operation
removes a fixture id from `threads_created_for` — every tick and every run
only grow it.  (`should_create_thread`, the only other tracker operation the
tick uses, reads but never writes state.) -/
theorem claim_C2 (st : MatchTracker) (m : MatchState) (env : TickEnv)
    (hch : st.current_fixture_id ≠ some m.fixture_id)
    (hp : env.poll = some m) :
    resetForFixture st m =
      ⟨some m.fixture_id, none, none, [], [], false, false, st.threads_created_for⟩ ∧
    update_once st env =
      (threadStepChanged (resetForFixture st m) m env).andThen
        (fun tr2 => destAndLive tr2 m env) ∧
    (update_once st env).state.current_fixture_id = some m.fixture_id ∧
    (∀ (tr : MatchTracker) (env2 : TickEnv),
      tr.threads_created_for ⊆ (update_once tr env2).state.threads_created_for) ∧
    (∀ (tr : MatchTracker) (envs : List TickEnv),
      tr.threads_created_for ⊆ (runTicks tr envs).1.threads_created_for) := by
  refine ⟨rfl, update_once_diff st env m hp hch, update_once_current st env m hp,
    update_once_threads, ?_⟩
  intro tr envs
  exact runTicks_threads envs tr

theorem claim_C2_witness :
    resetForFixture wSt2 wM2 =
      ⟨some 43, none, none, [], [], false, false, [42]⟩ ∧
    (update_once wSt2 wEnv2).state.current_fixture_id = some 43 ∧
    wSt2.threads_created_for ⊆ (update_once wSt2 wEnv2).state.threads_created_for := by
  have h := claim_C2 wSt2 wM2 wEnv2 (by decide) rfl
  exact ⟨h.1, h.2.2.1, h.2.2.2.1 wSt2 wEnv2⟩

/-!
## Claim C6
-/
theorem countHt_map_card (l : List String) : countHt (l.map Emission.card) = 0 := by
  induction l with
  | nil => rfl
  | cons a as ih => simp [countHt]

theorem countFt_map_card (l : List String) : countFt (l.map Emission.card) = 0 := by
  induction l with
  | nil => rfl
  | cons a as ih => simp [countFt]

theorem countHt_map_sub (l : List String) : countHt (l.map Emission.sub) = 0 := by
  induction l with
  | nil => rfl
  | cons a as ih => simp [countHt]

theorem countFt_map_sub (l : List String) : countFt (l.map Emission.sub) = 0 := by
  induction l with
  | nil => rfl
  | cons a as ih => simp [countFt]

theorem goalStep_flow (s : MatchTracker) (m : MatchState) (env : TickEnv)
    (h : env.goalSendOk = true) : (goalStep s m env).flow = .go := by
  unfold goalStep
  split
  · simp [h]
  · rfl

theorem cardStep_flow (s : MatchTracker) (m : MatchState) (env : TickEnv)
    (h : ∀ b ∈ env.cardSendOk, b = true) : (cardStep s m env).flow = .go := by
  unfold cardStep
  split
  · cases env.cards with
    | none => rfl
    | some cs => exact processKeyed_flow _ cs env.cardSendOk s.posted_card_keys h
  · rfl

theorem subStep_flow (s : MatchTracker) (m : MatchState) (env : TickEnv)
    (h : ∀ b ∈ env.subSendOk, b = true) : (subStep s m env).flow = .go := by
  unfold subStep
  split
  · cases env.subs with
    | none => rfl
    | some ss => exact processKeyed_flow _ ss env.subSendOk s.posted_sub_keys h
  · rfl

theorem htStep_flow (s : MatchTracker) (m : MatchState) (env : TickEnv)
    (h : env.htSendOk = true) : (htStep s m env).flow = .go := by
  unfold htStep
  split
  · simp [h]
  · rfl

theorem goalStep_htft (s : MatchTracker) (m : MatchState) (env : TickEnv) :
    (goalStep s m env).state.halftime_posted = s.halftime_posted ∧
    (goalStep s m env).state.fulltime_posted = s.fulltime_posted ∧
    countHt (goalStep s m env).events = 0 ∧
    countFt (goalStep s m env).events = 0 := by
  unfold goalStep
  split
  · exact ⟨rfl, rfl, by simp [countHt], by simp [countFt]⟩
  · exact ⟨rfl, rfl, rfl, rfl⟩

theorem cardStep_htft (s : MatchTracker) (m : MatchState) (env : TickEnv) :
    (cardStep s m env).state.halftime_posted = s.halftime_posted ∧
    (cardStep s m env).state.fulltime_posted = s.fulltime_posted ∧
    countHt (cardStep s m env).events = 0 ∧
    countFt (cardStep s m env).events = 0 := by
  unfold cardStep
  split
  · cases env.cards with
    | none => exact ⟨rfl, rfl, rfl, rfl⟩
    | some cs => exact ⟨rfl, rfl, countHt_map_card _, countFt_map_card _⟩
  · exact ⟨rfl, rfl, rfl, rfl⟩

theorem subStep_htft (s : MatchTracker) (m : MatchState) (env : TickEnv) :
    (subStep s m env).state.halftime_posted = s.halftime_posted ∧
    (subStep s m env).state.fulltime_posted = s.fulltime_posted ∧
    countHt (subStep s m env).events = 0 ∧
    countFt (subStep s m env).events = 0 := by
  unfold subStep
  split
  · cases env.subs with
    | none => exact ⟨rfl, rfl, rfl, rfl⟩
    | some ss => exact ⟨rfl, rfl, countHt_map_sub _, countFt_map_sub _⟩
  · exact ⟨rfl, rfl, rfl, rfl⟩

theorem htStep_spec (s : MatchTracker) (m : MatchState) (env : TickEnv) :
    countHt (htStep s m env).events =
      (if m.is_halftime ∧ s.halftime_posted = false then 1 else 0) ∧
    (htStep s m env).state.halftime_posted = (s.halftime_posted || decide m.is_halftime) ∧
    (htStep s m env).state.fulltime_posted = s.fulltime_posted ∧
    countFt (htStep s m env).events = 0 := by
  unfold htStep
  by_cases h : m.is_halftime ∧ s.halftime_posted = false
  · rw [if_pos h, if_pos h]
    exact ⟨by simp [countHt], by simp [h.1, h.2], rfl, by simp [countFt]⟩
  · rw [if_neg h, if_neg h]
    refine ⟨rfl, ?_, rfl, rfl⟩
    by_cases hih : m.is_halftime
    · have hft : s.halftime_posted = true := by
        cases hb : s.halftime_posted with
        | false => exact absurd ⟨hih, hb⟩ h
        | true => rfl
      simp [hft]
    · simp [hih]

theorem ftStep_spec (s : MatchTracker) (m : MatchState) (env : TickEnv) :
    countFt (ftStep s m env).events =
      (if m.state = "post" ∧ s.fulltime_posted = false then 1 else 0) ∧
    (ftStep s m env).state.fulltime_posted = (s.fulltime_posted || decide (m.state = "post")) ∧
    (ftStep s m env).state.halftime_posted = s.halftime_posted ∧
    countHt (ftStep s m env).events = 0 := by
  unfold ftStep
  by_cases h : m.state = "post" ∧ s.fulltime_posted = false
  · rw [if_pos h, if_pos h]
    exact ⟨by simp [countFt], by simp [h.1, h.2], rfl, by simp [countHt]⟩
  · rw [if_neg h, if_neg h]
    refine ⟨rfl, ?_, rfl, rfl⟩
    by_cases hpost : m.state = "post"
    · have hft : s.fulltime_posted = true := by
        cases hb : s.fulltime_posted with
        | false => exact absurd ⟨hpost, hb⟩ h
        | true => rfl
      simp [hft]
    · simp [hpost]

/-- The halftime/fulltime behaviour of one tick of the tracked fixture with
a healthy destination and no failing send. -/
theorem update_once_htft (st : MatchTracker) (m : MatchState) (env : TickEnv) (tid : Nat)
    (hpoll : env.poll = some m)
    (htracked : st.current_fixture_id = some m.fixture_id)
    (hthread : st.match_thread_id = some tid)
    (hchan : env.chanResolves = true)
    (hg : env.goalSendOk = true)
    (hcardOk : ∀ b ∈ env.cardSendOk, b = true)
    (hsubOk : ∀ b ∈ env.subSendOk, b = true)
    (hht : env.htSendOk = true) :
    countHt (update_once st env).events =
      (if m.is_halftime ∧ st.halftime_posted = false then 1 else 0) ∧
    (update_once st env).state.halftime_posted =
      (st.halftime_posted || decide m.is_halftime) ∧
    countFt (update_once st env).events =
      (if m.state = "post" ∧ st.fulltime_posted = false then 1 else 0) ∧
    (update_once st env).state.fulltime_posted =
      (st.fulltime_posted || decide (m.state = "post")) := by
  rw [update_once_same st env m hpoll htracked, destAndLive_live st m env tid hthread hchan]
  unfold liveSteps
  rw [andThen_go _ _ (goalStep_flow st m env hg)]
  simp only
  rw [andThen_go _ _ (cardStep_flow _ m env hcardOk)]
  simp only
  rw [andThen_go _ _ (subStep_flow _ m env hsubOk)]
  simp only
  rw [andThen_go _ _ (htStep_flow _ m env hht)]
  simp only
  have hg1 := goalStep_htft st m env
  have hc1 := cardStep_htft (goalStep st m env).state m env
  have hs1 := subStep_htft (cardStep (goalStep st m env).state m env).state m env
  have hpre :
      (subStep (cardStep (goalStep st m env).state m env).state m env).state.halftime_posted =
        st.halftime_posted := by
    rw [hs1.1, hc1.1, hg1.1]
  have hpreft :
      (subStep (cardStep (goalStep st m env).state m env).state m env).state.fulltime_posted =
        st.fulltime_posted := by
    rw [hs1.2.1, hc1.2.1, hg1.2.1]
  have hh1 := htStep_spec (subStep (cardStep (goalStep st m env).state m env).state m env).state
    m env
  have hf1 := ftStep_spec (htStep
    (subStep (cardStep (goalStep st m env).state m env).state m env).state m env).state m env
  refine ⟨?_, ?_, ?_, ?_⟩
  · rw [countHt_append, countHt_append, countHt_append, countHt_append]
    rw [hg1.2.2.1, hc1.2.2.1, hs1.2.2.1, hf1.2.2.2, hh1.1, hpre]
    omega
  · rw [hf1.2.2.1, hh1.2.1, hpre]
  · rw [countFt_append, countFt_append, countFt_append, countFt_append]
    rw [hg1.2.2.2, hc1.2.2.2, hs1.2.2.2, hh1.2.2.2, hf1.1, hh1.2.2.1, hpreft]
    omega
  · rw [hf1.2.1, hh1.2.2.1, hpreft]

/-- C6: for the tracked fixture with a working destination and no failing
send, one tick emits the halftime notification exactly when the phase is
halftime and `halftime_posted` is still false — and sets the flag — and emits
the full-time notification exactly when the phase is finished
(`state = "post"`) and `fulltime_posted` is still false — and sets the flag;
consequently over two consecutive halftime polls of the same fixture the
halftime notification fires exactly once. -/
theorem claim_C6 (st : MatchTracker) (m : MatchState) (env : TickEnv) (tid : Nat)
    (hpoll : env.poll = some m)
    (htracked : st.current_fixture_id = some m.fixture_id)
    (hthread : st.match_thread_id = some tid)
    (hchan : env.chanResolves = true)
    (hg : env.goalSendOk = true)
    (hcardOk : ∀ b ∈ env.cardSendOk, b = true)
    (hsubOk : ∀ b ∈ env.subSendOk, b = true)
    (hht : env.htSendOk = true) :
    countHt (update_once st env).events =
      (if m.is_halftime ∧ st.halftime_posted = false then 1 else 0) ∧
    (update_once st env).state.halftime_posted =
      (st.halftime_posted || decide m.is_halftime) ∧
    countFt (update_once st env).events =
      (if m.state = "post" ∧ st.fulltime_posted = false then 1 else 0) ∧
    (update_once st env).state.fulltime_posted =
      (st.fulltime_posted || decide (m.state = "post")) ∧
    (∀ (env2 : TickEnv) (m2 : MatchState),
      env2.poll = some m2 → m2.fixture_id = m.fixture_id →
      env2.chanResolves = true → env2.goalSendOk = true →
      (∀ b ∈ env2.cardSendOk, b = true) → (∀ b ∈ env2.subSendOk, b = true) →
      env2.htSendOk = true → m.is_halftime → m2.is_halftime →
      st.halftime_posted = false →
      countHt (update_once st env).events +
        countHt (update_once (update_once st env).state env2).events = 1) := by
  have h1 := update_once_htft st m env tid hpoll htracked hthread hchan hg hcardOk hsubOk hht
  refine ⟨h1.1, h1.2.1, h1.2.2.1, h1.2.2.2, ?_⟩
  intro env2 m2 hp2 hf2 hch2 hg2 hcard2 hsub2 hht2 hihm hihm2 hflag
  have hpf := liveSteps_pf st m env
  have hcur2 : (update_once st env).state.current_fixture_id = some m2.fixture_id := by
    rw [update_once_same st env m hpoll htracked,
      destAndLive_live st m env tid hthread hchan, hpf.current_eq, htracked, hf2]
  have hth2 : (update_once st env).state.match_thread_id = some tid := by
    rw [update_once_same st env m hpoll htracked,
      destAndLive_live st m env tid hthread hchan, hpf.thread_eq, hthread]
  have h2 := update_once_htft (update_once st env).state m2 env2 tid hp2 hcur2 hth2 hch2
    hg2 hcard2 hsub2 hht2
  rw [h1.1, h2.1, if_pos ⟨hihm, hflag⟩, if_neg]
  intro hcon
  rw [h1.2.1, hflag] at hcon
  have : decide m.is_halftime = true := decide_eq_true hihm
  rw [this] at hcon
  simp at hcon

/-- C3 counterexample: with `current_fixture_id = some 7` set and a poll
yielding no snapshot, the packaged tracker (`bot.py` lines 118-119) returns
with its state completely unchanged — `current_fixture_id` is NOT cleared,
nor is any other field, contradicting the claimed return to Idle. -/
theorem claim_C3_counterexample :
    (update_once wSt3 wEnvNone).state = wSt3 ∧
    (update_once wSt3 wEnvNone).state.current_fixture_id ≠ none ∧
    (update_once wSt3 wEnvNone).events = [] := by
  have h := update_once_none wSt3 wEnvNone rfl
  rw [h]
  exact ⟨rfl, by decide, rfl⟩

/-- C3 (amended): a poll with no snapshot leaves the packaged tracker
(`whitecaps_bot/bot.py:_update_once`) entirely unchanged and emits nothing —
`threads_created_for` included, but also every per-match field; it is only
the standalone tracker (root `tracker.py:_tick`, lines 291-297) that returns
to idle on an empty scoreboard, clearing its per-match fields (current match
id, seen event keys, match-over flag, thread, live message, last state)
while asking for the idle interval. -/
theorem claim_C3_amended (st : MatchTracker) (env : TickEnv) (h : env.poll = none) :
    update_once st env = ⟨st, [], .done⟩ ∧
    (∀ ts : TopTracker, ts.current_match_id ≠ none →
      topTickEmpty ts = (topResetState, POLL_INTERVAL_IDLE) ∧
      (topTickEmpty ts).1.current_match_id = none ∧
      (topTickEmpty ts).1.seen_events = [] ∧
      (topTickEmpty ts).1.match_over = false ∧
      (topTickEmpty ts).1.thread = none) := by
  refine ⟨update_once_none st env h, ?_⟩
  intro ts hts
  unfold topTickEmpty
  rw [if_pos hts]
  exact ⟨rfl, rfl, rfl, rfl, rfl⟩

theorem claim_C3_witness :
    update_once wSt3 wEnvNone = ⟨wSt3, [], .done⟩ ∧
    topTickEmpty wTop3 = (topResetState, POLL_INTERVAL_IDLE) := by
  have h := claim_C3_amended wSt3 wEnvNone rfl
  exact ⟨h.1, (h.2 wTop3 (by simp [wTop3])).1⟩

/-- C10 counterexample: a tick that ends with no destination
(`match_thread_id = none`) and emits nothing can still have changed
`last_score` and the posted-key sets — the fixture-change reset ran earlier
in the same tick, so the claim's frame condition fails as stated. -/
theorem claim_C10_counterexample :
    (update_once wSt10 wEnv10).state.match_thread_id = none ∧
    (update_once wSt10 wEnv10).events = [] ∧
    (update_once wSt10 wEnv10).state.last_score ≠ wSt10.last_score ∧
    (update_once wSt10 wEnv10).state.posted_card_keys ≠ wSt10.posted_card_keys := by
  decide

/-- C10 (amended): when, after the fixture-change and thread-creation steps,
the tick has no destination (no stored thread id, or the channel does not
resolve), the tick ends there: the only message it can have sent is the
thread-creation announcement — no goal, card, substitution, halftime or
full-time notification — and `last_score`, the posted card and substitution
key sets and the two posted flags hold exactly the values the fixture-change
step produced: unchanged from the start of the tick when the fixture is
unchanged, the reset values when the fixture changed. -/
theorem claim_C10_amended (st : MatchTracker) (env : TickEnv) (m : MatchState)
    (hp : env.poll = some m)
    (hnd : (update_once st env).state.match_thread_id = none ∨ ¬env.chanResolves = true) :
    (∀ e ∈ (update_once st env).events, e = Emission.threadLive) ∧
    (update_once st env).state.last_score =
      (if st.current_fixture_id = some m.fixture_id then st.last_score else none) ∧
    (update_once st env).state.posted_card_keys =
      (if st.current_fixture_id = some m.fixture_id then st.posted_card_keys else []) ∧
    (update_once st env).state.posted_sub_keys =
      (if st.current_fixture_id = some m.fixture_id then st.posted_sub_keys else []) ∧
    (update_once st env).state.halftime_posted =
      (if st.current_fixture_id = some m.fixture_id then st.halftime_posted else false) ∧
    (update_once st env).state.fulltime_posted =
      (if st.current_fixture_id = some m.fixture_id then st.fulltime_posted else false) := by
  by_cases hc : st.current_fixture_id = some m.fixture_id
  · rw [update_once_same st env m hp hc] at hnd ⊢
    rw [if_pos hc, if_pos hc, if_pos hc, if_pos hc, if_pos hc]
    cases ht : st.match_thread_id with
    | none =>
      rw [destAndLive_no_thread st m env ht]
      exact ⟨by intro e he; simp at he, rfl, rfl, rfl, rfl, rfl⟩
    | some tid =>
      by_cases hch : env.chanResolves = true
      · exfalso
        rcases hnd with hl | hr
        · rw [destAndLive_live st m env tid ht hch] at hl
          rw [(liveSteps_pf st m env).thread_eq, ht] at hl
          exact Option.noConfusion hl
        · exact hr hch
      · rw [destAndLive_unresolved st m env tid ht hch]
        exact ⟨by intro e he; simp at he, rfl, rfl, rfl, rfl, rfl⟩
  · rw [update_once_diff st env m hp hc] at hnd ⊢
    rw [if_neg hc, if_neg hc, if_neg hc, if_neg hc, if_neg hc]
    by_cases hs : should_create_thread (resetForFixture st m) m env.now = true
    · cases he : env.ensureResult with
      | none =>
        rw [threadStepChanged_fail _ m env hs he, andThen_mk_raised]
        exact ⟨by intro e hee; simp at hee, rfl, rfl, rfl, rfl, rfl⟩
      | some tid =>
        rw [threadStepChanged_create _ m env tid hs he] at hnd ⊢
        by_cases ha : env.annOk = true
        · rw [if_pos ha, andThen_mk_go] at hnd ⊢
          by_cases hch : env.chanResolves = true
          · exfalso
            rcases hnd with hl | hr
            · rw [destAndLive_live _ m env tid rfl hch] at hl
              rw [(liveSteps_pf _ m env).thread_eq] at hl
              exact Option.noConfusion hl
            · exact hr hch
          · rw [destAndLive_unresolved _ m env tid rfl hch]
            refine ⟨?_, rfl, rfl, rfl, rfl, rfl⟩
            intro e hee
            rw [List.append_nil] at hee
            simpa using hee
        · rw [if_neg ha, andThen_mk_raised]
          exact ⟨by intro e hee; simpa using hee, rfl, rfl, rfl, rfl, rfl⟩
    · rw [threadStepChanged_skip _ m env hs, andThen_mk_go,
        destAndLive_no_thread _ m env rfl]
      exact ⟨by intro e hee; simp at hee, rfl, rfl, rfl, rfl, rfl⟩

theorem claim_C10_witness :
    (∀ e ∈ (update_once wSt10 wEnv10).events, e = Emission.threadLive) ∧
    (update_once wSt10 wEnv10).state.last_score = none := by
  have h := claim_C10_amended wSt10 wEnv10 wM10 rfl (Or.inl (by decide))
  exact ⟨h.1, h.2.1.trans (by decide)⟩

theorem claim_C6_witness :
    countHt (update_once wSt6 wEnv6).events = 1 ∧
    (update_once wSt6 wEnv6).state.halftime_posted = true ∧
    countHt (update_once wSt6 wEnv6).events +
      countHt (update_once (update_once wSt6 wEnv6).state wEnv6).events = 1 := by
  have h := claim_C6 wSt6 wM6 wEnv6 7 rfl rfl rfl rfl rfl (by decide) (by decide) rfl
  refine ⟨?_, ?_, h.2.2.2.2 wEnv6 wM6 rfl rfl rfl rfl (by decide) (by decide) rfl
    (by decide) (by decide) rfl⟩
  · rw [h.1, if_pos ⟨by decide, rfl⟩]
  · rw [h.2.1]
    decide

/-!
## Claim C5
-/
/-- C5: across any run of the tracker from its initial state — whatever the
environments do, including failing sends and fixture changes — the card
announcements carry pairwise-distinct dedupe keys and so do the substitution
announcements: each dedupe key is emitted at most once per process lifetime.
The added conjunct records the add-before-send order of the loop: a fresh key
is placed in the posted set and announced in the same step, with the key
retained even when the send fails (flow `raised`). -/
theorem claim_C5 (envs : List TickEnv) :
    (cardKeys (runTicks MatchTracker.init envs).2).Nodup ∧
    (subKeys (runTicks MatchTracker.init envs).2).Nodup ∧
    (∀ (fid : Nat) (c : RawCard) (sendOk : List Bool) (keys : List String),
      mkCardKey fid c ∉ keys →
      processKeyed (mkCardKey fid) [c] sendOk keys =
        (mkCardKey fid c :: keys, [mkCardKey fid c],
          if sendOk.headD true = true then .go else .raised)) := by
  have h := runTicks_inv envs MatchTracker.init [] trackerInv_init
  refine ⟨by simpa using h.card_nodup, by simpa using h.sub_nodup, ?_⟩
  intro fid c sendOk keys hk
  by_cases hs : sendOk.headD true = true
  · rw [if_pos hs]
    simp only [processKeyed]
    rw [if_neg hk, if_pos hs]
  · rw [if_neg hs]
    simp only [processKeyed]
    rw [if_neg hk, if_neg hs]

theorem claim_C5_witness :
    (cardKeys (runTicks MatchTracker.init [wEnv6]).2).Nodup ∧
    processKeyed (mkCardKey 5) [wCard5] [false] [] =
      ([mkCardKey 5 wCard5], [mkCardKey 5 wCard5], .raised) := by
  have h := claim_C5 [wEnv6]
  refine ⟨h.1, ?_⟩
  have h3 := h.2.2 5 wCard5 [false] [] (by simp)
  rw [h3]
  rfl

/-!
## Claim C7
-/
/-- C7: `should_create_thread` refuses a fixture already in
`threads_created_for` regardless of phase; otherwise accepts a live or
finished match unconditionally; and for a scheduled match accepts exactly
when a kickoff time is present and at most the 24-hour window away. -/
theorem claim_C7 (tr : MatchTracker) (m : MatchState) (now : Int) :
    (m.fixture_id ∈ tr.threads_created_for → should_create_thread tr m now = false) ∧
    (m.fixture_id ∉ tr.threads_created_for → m.state = "in" ∨ m.state = "post" →
      should_create_thread tr m now = true) ∧
    (m.fixture_id ∉ tr.threads_created_for → m.state = "pre" →
      (should_create_thread tr m now = true ↔
        ∃ t, m.starts_at = some t ∧ t - now ≤ THREAD_CREATION_WINDOW)) := by
  unfold should_create_thread
  refine ⟨fun hm => by rw [if_pos hm], fun hm hs => by rw [if_neg hm, if_pos hs], ?_⟩
  intro hm hs
  rw [if_neg hm]
  have hno : ¬(m.state = "in" ∨ m.state = "post") := by
    rintro (h | h) <;> rw [hs] at h <;> exact absurd h (by decide)
  rw [if_neg hno, if_pos hs]
  cases hsa : m.starts_at with
  | none =>
    show false = true ↔
      ∃ t : Int, (none : Option Int) = some t ∧ t - now ≤ THREAD_CREATION_WINDOW
    constructor
    · intro h; exact Bool.noConfusion h
    · rintro ⟨t, ht, _⟩; exact Option.noConfusion ht
  | some t =>
    show (if t - now ≤ THREAD_CREATION_WINDOW then true else false) = true ↔
      ∃ t2 : Int, (some t : Option Int) = some t2 ∧ t2 - now ≤ THREAD_CREATION_WINDOW
    by_cases hw : t - now ≤ THREAD_CREATION_WINDOW
    · rw [if_pos hw]
      exact ⟨fun _ => ⟨t, rfl, hw⟩, fun _ => rfl⟩
    · rw [if_neg hw]
      constructor
      · intro h; exact Bool.noConfusion h
      · rintro ⟨t2, ht2, hle⟩
        injection ht2 with hh
        rw [← hh] at hle
        exact absurd hle hw

theorem claim_C7_witness :
    should_create_thread wTr7 wM7 0 = true ∧
    should_create_thread wTr7b wM7 0 = false := by
  have h := claim_C7 wTr7 wM7 0
  have h2 := claim_C7 wTr7b wM7 0
  exact ⟨(h.2.2 (by decide) (by decide)).mpr ⟨3600, rfl, by decide⟩, h2.1 (by decide)⟩

/-- C8 evaluated at the failing input: on a later poll of the same fixture
the policy `should_create_thread` now approves, yet the tick — whose thread
creation is guarded by `fixture_changed` (`bot.py` line 134) — never calls
`ensure_match_thread`: the tick ends with no thread, no emission and no state
change at all.  Thread creation is decided once at the fixture-change tick
and never retried, contradicting the claim (and the spec's deferred-creation
rule). -/
theorem claim_C8_code_bug :
    should_create_thread wSt8 wM8 0 = true ∧
    (update_once wSt8 wEnv8).state.match_thread_id = none ∧
    (update_once wSt8 wEnv8).events = [] ∧
    (update_once wSt8 wEnv8).state = wSt8 := by
  decide

/-!
## Claim C9
-/
/-- C9: over any sequence of tick outcomes, the loop (`tracker.py:_loop`,
lines 269-283) performs exactly one sleep per outcome before the first
cancellation — a non-cancellation error never terminates it and sleeps the
idle interval — and stops at the first cancellation, which is re-raised
rather than caught. -/
theorem claim_C9 :
    (∀ outs : List TickOutcome,
      loopRun outs =
        ((outs.takeWhile fun o => decide (o ≠ TickOutcome.cancelled)).map sleepOf,
          decide (TickOutcome.cancelled ∈ outs))) ∧
    loopIter .error = some POLL_INTERVAL_IDLE ∧
    loopIter .cancelled = none ∧
    (∀ i : Nat, loopIter (.ok i) = some i) := by
  refine ⟨?_, rfl, rfl, fun i => rfl⟩
  intro outs
  induction outs with
  | nil => rfl
  | cons o rest ih =>
    cases o with
    | ok i =>
      simp only [loopRun, loopIter, List.takeWhile, List.map, sleepOf, ih]
      simp [sleepOf]
    | error =>
      simp only [loopRun, loopIter, List.takeWhile, List.map, sleepOf, ih]
      simp [sleepOf]
    | cancelled =>
      simp [loopRun, loopIter, List.takeWhile]

/-!
## Claim C4
-/
/-- C4: every `MatchState` the ESPN extractor produces carries
`short_status = (state or "pre").upper()`; given that ESPN's status states
are `pre`, `in` and `post`, the result is one of `PRE`, `IN`, `POST`, none
of which occur in `IN_MATCH_CODES` or `FINAL_CODES` — so `MatchState.state`
evaluates to `"pre"` on every ESPN-derived snapshot, live and finished ones
included. -/
theorem claim_C4 (teamId teamName : String) (ev : EspnEvent) (m : MatchState)
    (hx : extract_match teamId teamName ev = some m)
    (hs : ev.statusState ∈ (["pre", "in", "post"] : List String)) :
    m.short_status = strUpper ev.statusState ∧
    m.short_status ∈ (["PRE", "IN", "POST"] : List String) ∧
    m.short_status ∉ IN_MATCH_CODES ∧
    m.short_status ∉ FINAL_CODES ∧
    m.state = "pre" := by
  unfold extract_match at hx
  rcases hcomp : ev.competitors with _ | ⟨c0, _ | ⟨c1, rest2⟩⟩ <;> rw [hcomp] at hx
  · exact Option.noConfusion hx
  · exact Option.noConfusion hx
  · simp only at hx
    split at hx
    · injection hx with hm
      have hss : m.short_status =
          strUpper (if ev.statusState = "" then "pre" else ev.statusState) := by
        rw [← hm]
      simp only [List.mem_cons, List.not_mem_nil, or_false] at hs
      rcases hs with h | h | h
      · have hv : m.short_status = "PRE" := by rw [hss, h]; decide
        exact ⟨by rw [h]; exact hv.trans rfl, by rw [hv]; decide, by rw [hv]; decide,
          by rw [hv]; decide, by simp only [MatchState.state, hv]; decide⟩
      · have hv : m.short_status = "IN" := by rw [hss, h]; decide
        exact ⟨by rw [h]; exact hv.trans rfl, by rw [hv]; decide, by rw [hv]; decide,
          by rw [hv]; decide, by simp only [MatchState.state, hv]; decide⟩
      · have hv : m.short_status = "POST" := by rw [hss, h]; decide
        exact ⟨by rw [h]; exact hv.trans rfl, by rw [hv]; decide, by rw [hv]; decide,
          by rw [hv]; decide, by simp only [MatchState.state, hv]; decide⟩
    · exact Option.noConfusion hx

theorem claim_C4_witness :
    wM4.state = "pre" ∧ wM4.short_status = "IN" := by
  have h := claim_C4 "9727" "Vancouver Whitecaps" wEv4 wM4 (by decide) (by decide)
  exact ⟨h.2.2.2.2, h.1.trans (by decide)⟩
